import Mathlib

/-!
# task-api: a verification development for `main.go`

The service is a single Go file: a `tasks` table in SQLite, seven gin handlers
and three description providers.  The handlers are embedded as pure functions
from the handler's inputs (the bound request body, the path parameter, the
outcome of the one outbound provider call, the outcome of the one store
statement, the store contents) to an `Outcome`: the reply, the store afterwards
and the trace of external effects in the order the handler performs them.

Go strings are byte sequences (`len` and slicing count bytes), so text is
modelled as a list of byte values.
-/

set_option autoImplicit false

namespace TaskApi

/-! ## Go strings -/

/-- A Go `string`: a sequence of bytes, every element a value below 256. -/
abbrev GoString := List Nat

/-- Go `utf8.EncodeRune`: the UTF-8 bytes of a code point; surrogates and values
above U+10FFFF are written as U+FFFD. -/
def encodeRune (r : Nat) : GoString :=
  if r < 0x80 then [r]
  else if r < 0x800 then [0xC0 + r / 64, 0x80 + r % 64]
  else if (0xD800 ≤ r ∧ r < 0xE000) ∨ 0x10FFFF < r then [0xEF, 0xBF, 0xBD]
  else if r < 0x10000 then [0xE0 + r / 4096, 0x80 + r / 64 % 64, 0x80 + r % 64]
  else [0xF0 + r / 262144, 0x80 + r / 4096 % 64, 0x80 + r / 64 % 64, 0x80 + r % 64]

/-- The bytes of a source-level string literal (Go source files are UTF-8). -/
def utf8 (s : String) : GoString :=
  s.data.flatMap (fun c => encodeRune c.toNat)

/-- A UTF-8 continuation byte, `0x80..0xBF`. -/
def isCont (b : Nat) : Bool := 0x80 ≤ b && b ≤ 0xBF

/-- Go `utf8.DecodeRune`, width only: the number of bytes of the well-formed
UTF-8 sequence at the head of `p`, or `0` where Go reports `(RuneError, 1)`
(an invalid or truncated sequence) or the input is empty. -/
def runeWidth (p : GoString) : Nat :=
  match p with
  | [] => 0
  | p0 :: rest =>
    if p0 < 0x80 then 1
    else if p0 < 0xC2 then 0
    else if p0 < 0xE0 then
      match rest with
      | b1 :: _ => if isCont b1 then 2 else 0
      | [] => 0
    else if p0 < 0xF0 then
      let lo := if p0 = 0xE0 then 0xA0 else 0x80
      let hi := if p0 = 0xED then 0x9F else 0xBF
      match rest with
      | b1 :: b2 :: _ => if lo ≤ b1 ∧ b1 ≤ hi ∧ isCont b2 then 3 else 0
      | _ => 0
    else if p0 < 0xF5 then
      let lo := if p0 = 0xF0 then 0x90 else 0x80
      let hi := if p0 = 0xF4 then 0x8F else 0xBF
      match rest with
      | b1 :: b2 :: b3 :: _ => if lo ≤ b1 ∧ b1 ≤ hi ∧ isCont b2 ∧ isCont b3 then 4 else 0
      | _ => 0
    else 0

/-- Go `utf8.RuneCountInString` with `skip` bytes of the current character still
to pass: the number of characters, an invalid byte counting as one. -/
def runeCountFrom : Nat → GoString → Nat
  | _, [] => 0
  | skip + 1, _ :: rest => runeCountFrom skip rest
  | 0, b :: rest => 1 + runeCountFrom (runeWidth (b :: rest) - 1) rest

/-- Go `utf8.RuneCountInString`: the number of characters (code points) of a
byte string. -/
def runeCount (s : GoString) : Nat := runeCountFrom 0 s

/-- Go `strings.Split(s, "\n")`: the pieces between line feeds; always at least
one piece, the last one empty when the text ends in a line feed. -/
def splitLines : GoString → List GoString
  | [] => [[]]
  | c :: cs =>
    if c = 0x0A then [] :: splitLines cs
    else
      match splitLines cs with
      | [] => [[c]]
      | l :: ls => (c :: l) :: ls

/-! ## `encoding/json`, as `json.Unmarshal` uses it on one streamed line

`json.Unmarshal` first checks the whole input against the JSON grammar
(`checkValid`), then decodes the value into the target, recording the first
type mismatch (`saveError`) and returning it at the end. -/

/-- A parsed JSON document; strings are held unquoted. -/
inductive JValue where
  | null
  | bool (b : Bool)
  | number (lit : GoString)
  | string (s : GoString)
  | array (items : List JValue)
  | object (members : List (GoString × JValue))

/-- JSON insignificant whitespace: space, tab, carriage return, line feed. -/
def isSpace (c : Nat) : Bool := c = 0x20 || c = 0x09 || c = 0x0D || c = 0x0A

/-- Drop leading whitespace. -/
def skipSpace : GoString → GoString
  | [] => []
  | c :: cs => if isSpace c then skipSpace cs else c :: cs

/-- An ASCII decimal digit. -/
def isDigit (c : Nat) : Bool := 0x30 ≤ c && c ≤ 0x39

/-- The value of a hexadecimal digit. -/
def hexVal (c : Nat) : Option Nat :=
  if 0x30 ≤ c ∧ c ≤ 0x39 then some (c - 0x30)
  else if 0x61 ≤ c ∧ c ≤ 0x66 then some (c - 0x61 + 10)
  else if 0x41 ≤ c ∧ c ≤ 0x46 then some (c - 0x41 + 10)
  else none

/-- Go `getu4`: the code unit of a `\uXXXX` escape at the head of `s`. -/
def getu4 (s : GoString) : Option Nat :=
  match s with
  | bs :: u :: a :: b :: c :: d :: _ =>
    if bs = 0x5C ∧ u = 0x75 then
      match hexVal a, hexVal b, hexVal c, hexVal d with
      | some a, some b, some c, some d => some (a * 4096 + b * 256 + c * 16 + d)
      | _, _, _, _ => none
    else none
  | _ => none

/-- Go `utf16.DecodeRune`: the code point of a surrogate pair, U+FFFD when the
two units are not a high surrogate followed by a low one. -/
def decodeSurrogates (r1 r2 : Nat) : Nat :=
  if 0xD800 ≤ r1 ∧ r1 < 0xDC00 ∧ 0xDC00 ≤ r2 ∧ r2 < 0xE000 then
    (r1 - 0xD800) * 1024 + (r2 - 0xDC00) + 0x10000
  else 0xFFFD

/-- What the scanner and `unquoteBytes` do at one position inside a string
literal. -/
inductive StringStep where
  | close
  | fail
  | emit (out : GoString) (skip : Nat)

/-- The scanner's string states together with `unquoteBytes` at the byte `c`
followed by `rest`: the closing quote, a syntax error (a control byte, an unknown
or truncated escape), or the unquoted bytes to emit and how many further bytes of
the input the escape or multi-byte character takes.  A lone surrogate escape and
malformed UTF-8 are coerced to U+FFFD. -/
def stringStep (c : Nat) (rest : GoString) : StringStep :=
  if c = 0x22 then StringStep.close
  else if c = 0x5C then
    match rest with
    | [] => StringStep.fail
    | e :: _ =>
      if e = 0x22 ∨ e = 0x5C ∨ e = 0x2F then StringStep.emit [e] 1
      else if e = 0x62 then StringStep.emit [0x08] 1
      else if e = 0x66 then StringStep.emit [0x0C] 1
      else if e = 0x6E then StringStep.emit [0x0A] 1
      else if e = 0x72 then StringStep.emit [0x0D] 1
      else if e = 0x74 then StringStep.emit [0x09] 1
      else if e = 0x75 then
        match getu4 (c :: rest) with
        | none => StringStep.fail
        | some rr =>
          if 0xD800 ≤ rr ∧ rr < 0xE000 then
            match getu4 (rest.drop 5) with
            | some rr1 =>
              if decodeSurrogates rr rr1 ≠ 0xFFFD then
                StringStep.emit (encodeRune (decodeSurrogates rr rr1)) 11
              else StringStep.emit [0xEF, 0xBF, 0xBD] 5
            | none => StringStep.emit [0xEF, 0xBF, 0xBD] 5
          else StringStep.emit (encodeRune rr) 5
      else StringStep.fail
  else if c < 0x20 then StringStep.fail
  else if c < 0x80 then StringStep.emit [c] 0
  else if runeWidth (c :: rest) = 0 then StringStep.emit [0xEF, 0xBF, 0xBD] 0
  else StringStep.emit ((c :: rest).take (runeWidth (c :: rest))) (runeWidth (c :: rest) - 1)

/-- Reads a string literal whose opening quote has been consumed and returns the
unquoted bytes and the input after the closing quote.  `skip` counts bytes of an
escape or of a multi-byte character that the previous step already accounted
for. -/
def scanString : Nat → GoString → GoString → Option (GoString × GoString)
  | _, [], _ => none
  | skip + 1, _ :: rest, acc => scanString skip rest acc
  | 0, c :: rest, acc =>
    match stringStep c rest with
    | StringStep.close => some (acc, rest)
    | StringStep.fail => none
    | StringStep.emit out skip => scanString skip rest (acc ++ out)

/-- One or more digits at the head of the input, then the rest. -/
def scanDigits (inp : GoString) : Option (GoString × GoString) :=
  if (inp.takeWhile isDigit) = [] then none
  else some (inp.takeWhile isDigit, inp.dropWhile isDigit)

/-- The integer part of a number, `-? (0 | [1-9][0-9]*)`, and the input after it. -/
def scanInt (inp : GoString) : Option (GoString × GoString) :=
  match inp with
  | [] => none
  | c :: r =>
    if c = 0x2D then
      match r with
      | [] => none
      | d :: r1 =>
        if d = 0x30 then some ([c, d], r1)
        else if 0x31 ≤ d ∧ d ≤ 0x39 then
          some (c :: d :: r1.takeWhile isDigit, r1.dropWhile isDigit)
        else none
    else if c = 0x30 then some ([c], r)
    else if 0x31 ≤ c ∧ c ≤ 0x39 then some (c :: r.takeWhile isDigit, r.dropWhile isDigit)
    else none

/-- The optional fraction of a number, `(. [0-9]+)?`, and the input after it. -/
def scanFrac (inp : GoString) : Option (GoString × GoString) :=
  match inp with
  | [] => some ([], inp)
  | c :: r =>
    if c = 0x2E then (scanDigits r).map (fun p => (c :: p.1, p.2))
    else some ([], inp)

/-- The optional exponent of a number, `([eE] [+-]? [0-9]+)?`, and the input
after it. -/
def scanExp (inp : GoString) : Option (GoString × GoString) :=
  match inp with
  | [] => some ([], inp)
  | c :: r =>
    if c = 0x65 ∨ c = 0x45 then
      match r with
      | [] => none
      | s :: r1 =>
        if s = 0x2B ∨ s = 0x2D then (scanDigits r1).map (fun p => (c :: s :: p.1, p.2))
        else (scanDigits r).map (fun p => (c :: p.1, p.2))
    else some ([], inp)

/-- The scanner's number states: `-? (0 | [1-9][0-9]*) (. [0-9]+)? ([eE] [+-]? [0-9]+)?`.
Returns the literal and the input after it. -/
def scanNumber (inp : GoString) : Option (GoString × GoString) :=
  match scanInt inp with
  | none => none
  | some (ip, r1) =>
    match scanFrac r1 with
    | none => none
    | some (fp, r2) =>
      match scanExp r2 with
      | none => none
      | some (ep, r3) => some (ip ++ fp ++ ep, r3)

/-- The input after `lit` when the input starts with it. -/
def stripLiteral (lit : GoString) (inp : GoString) : Option GoString :=
  if lit.isPrefixOf inp then some (inp.drop lit.length) else none

/-- The scanner's nesting limit (`maxNestingDepth`). -/
def maxNestingDepth : Nat := 10000

mutual

/-- One JSON value at the head of the input (after optional whitespace), and the
input after it.  `depth` is the number of containers currently open. -/
def parseValue : Nat → Nat → GoString → Option (JValue × GoString)
  | 0, _, _ => none
  | fuel + 1, depth, inp =>
    match skipSpace inp with
    | [] => none
    | c :: rest =>
      if c = 0x7B then
        if maxNestingDepth ≤ depth then none
        else
          match skipSpace rest with
          | [] => none
          | d :: r =>
            if d = 0x7D then some (JValue.object [], r)
            else (parseMembers fuel (depth + 1) (d :: r)).map (fun p => (JValue.object p.1, p.2))
      else if c = 0x5B then
        if maxNestingDepth ≤ depth then none
        else
          match skipSpace rest with
          | [] => none
          | d :: r =>
            if d = 0x5D then some (JValue.array [], r)
            else (parseElems fuel (depth + 1) (d :: r)).map (fun p => (JValue.array p.1, p.2))
      else if c = 0x22 then
        (scanString 0 rest []).map (fun p => (JValue.string p.1, p.2))
      else if c = 0x2D ∨ isDigit c then
        (scanNumber (c :: rest)).map (fun p => (JValue.number p.1, p.2))
      else if c = 0x74 then
        (stripLiteral [0x74, 0x72, 0x75, 0x65] (c :: rest)).map (fun r => (JValue.bool true, r))
      else if c = 0x66 then
        (stripLiteral [0x66, 0x61, 0x6C, 0x73, 0x65] (c :: rest)).map
          (fun r => (JValue.bool false, r))
      else if c = 0x6E then
        (stripLiteral [0x6E, 0x75, 0x6C, 0x6C] (c :: rest)).map (fun r => (JValue.null, r))
      else none

/-- The elements of a non-empty array up to and including the closing bracket. -/
def parseElems : Nat → Nat → GoString → Option (List JValue × GoString)
  | 0, _, _ => none
  | fuel + 1, depth, inp =>
    match parseValue fuel depth inp with
    | none => none
    | some (v, r) =>
      match skipSpace r with
      | [] => none
      | d :: r1 =>
        if d = 0x2C then (parseElems fuel depth r1).map (fun p => (v :: p.1, p.2))
        else if d = 0x5D then some ([v], r1)
        else none

/-- The members of a non-empty object up to and including the closing brace. -/
def parseMembers : Nat → Nat → GoString → Option (List (GoString × JValue) × GoString)
  | 0, _, _ => none
  | fuel + 1, depth, inp =>
    match skipSpace inp with
    | [] => none
    | q :: r0 =>
      if q = 0x22 then
        match scanString 0 r0 [] with
        | none => none
        | some (key, r1) =>
          match skipSpace r1 with
          | [] => none
          | colon :: r2 =>
            if colon = 0x3A then
              match parseValue fuel depth r2 with
              | none => none
              | some (v, r3) =>
                match skipSpace r3 with
                | [] => none
                | d :: r4 =>
                  if d = 0x2C then
                    (parseMembers fuel depth r4).map (fun p => ((key, v) :: p.1, p.2))
                  else if d = 0x7D then some ([(key, v)], r4)
                  else none
            else none
      else none

end

/-- Go `checkValid` followed by a full parse: the document, when the whole input
is exactly one JSON value with optional surrounding whitespace.  Every recursive
call is made after at least one byte was consumed in one of the two preceding
calls, so twice the input length (plus two) is enough fuel
(`parseValue_fuel_enough`). -/
def parseJSON (data : GoString) : Option JValue :=
  match parseValue (2 * data.length + 2) 0 data with
  | none => none
  | some (v, rest) => if skipSpace rest = [] then some v else none

/-- Go `json.Valid`: the input is a well-formed JSON document. -/
def jsonValid (data : GoString) : Bool := (parseJSON data).isSome

/-- The value of the first member named `key` of a JSON object. -/
def JValue.member (key : GoString) : JValue → Option JValue
  | JValue.object ms => (ms.find? (fun kv => kv.1 = key)).map (fun kv => kv.2)
  | _ => none

/-- The text of a JSON string value. -/
def JValue.asString : JValue → Option GoString
  | JValue.string s => some s
  | _ => none

/-- The anonymous struct declared in the loop of `createTaskOllama`:
`struct { Response string; Done bool }`. -/
structure PartialResponse where
  Response : GoString
  Done : Bool
deriving DecidableEq, Repr

/-- The decoder state: the target struct and whether a type mismatch was saved. -/
structure DecodeState where
  val : PartialResponse
  savedError : Bool
deriving DecidableEq, Repr

/-- Go `foldName`, exact for comparison with an ASCII field name: ASCII letters
are upper-cased, and the two non-ASCII characters that fold to an ASCII letter,
U+017F (long s, bytes C5 BF) and U+212A (Kelvin sign, bytes E2 84 AA), become
`S` and `K`.  `skip` counts the remaining bytes of such a character. -/
def foldNameFrom : Nat → GoString → GoString
  | _, [] => []
  | skip + 1, _ :: rest => foldNameFrom skip rest
  | 0, c :: rest =>
    if c = 0xC5 ∧ rest.take 1 = [0xBF] then 0x53 :: foldNameFrom 1 rest
    else if c = 0xE2 ∧ rest.take 2 = [0x84, 0xAA] then 0x4B :: foldNameFrom 2 rest
    else (if 0x61 ≤ c ∧ c ≤ 0x7A then c - 0x20 else c) :: foldNameFrom 0 rest

/-- Go `foldName` of an object key. -/
def foldName (key : GoString) : GoString := foldNameFrom 0 key

/-- Go `literalStore` / `object` / `array` on the field `Response string`: a JSON
string is stored, `null` leaves the field alone, anything else saves an
`UnmarshalTypeError` and decoding goes on. -/
def storeResponse (st : DecodeState) : JValue → DecodeState
  | JValue.string s => { st with val := { st.val with Response := s } }
  | JValue.null => st
  | _ => { st with savedError := true }

/-- Go `literalStore` / `object` / `array` on the field `Done bool`: `true` and
`false` are stored, `null` leaves the field alone, anything else saves an
`UnmarshalTypeError`. -/
def storeDone (st : DecodeState) : JValue → DecodeState
  | JValue.bool b => { st with val := { st.val with Done := b } }
  | JValue.null => st
  | _ => { st with savedError := true }

/-- One iteration of the member loop of Go `decodeState.object` on the struct:
the field is looked up by exact name, then by folded name; the value of an
unknown key is skipped. -/
def decodeMember (st : DecodeState) (kv : GoString × JValue) : DecodeState :=
  if kv.1 = utf8 "response" then storeResponse st kv.2
  else if kv.1 = utf8 "done" then storeDone st kv.2
  else if foldName kv.1 = utf8 "RESPONSE" then storeResponse st kv.2
  else if foldName kv.1 = utf8 "DONE" then storeDone st kv.2
  else st

/-- Go `decodeState.value` on a pointer to the struct: an object is decoded
member by member, a top-level `null` is ignored, every other kind of document
saves an `UnmarshalTypeError`. -/
def decodeValue : JValue → DecodeState
  | JValue.object ms => ms.foldl decodeMember ⟨⟨[], false⟩, false⟩
  | JValue.null => ⟨⟨[], false⟩, false⟩
  | _ => ⟨⟨[], false⟩, true⟩

/-- Go `json.Unmarshal([]byte(line), &partialResponse)` on a fresh struct:
`none` stands for a non-nil error (a syntax error, or the saved type error). -/
def jsonUnmarshal (line : GoString) : Option PartialResponse :=
  match parseJSON line with
  | none => none
  | some v => if (decodeValue v).savedError then none else some (decodeValue v).val

/-! ## Data model (`main.go` lines 18-40) -/

/-- The struct `Task`, lines 18-22.  Go `int` is taken as the 64-bit type it is
on 64-bit builds, so `int(id)` of a rowid is the rowid. -/
structure Task where
  ID : Int
  Title : GoString
  Description : GoString
deriving DecidableEq, Repr

/-- The struct `AIResponse`, lines 24-26. -/
structure AIResponse where
  Content : GoString
deriving DecidableEq, Repr

/-- One element of `Parts` in `GeminiResponse`. -/
structure GeminiPart where
  Text : GoString
deriving DecidableEq, Repr

/-- The `Content` struct of a candidate in `GeminiResponse`. -/
structure GeminiContent where
  Parts : List GeminiPart
deriving DecidableEq, Repr

/-- One element of `Candidates` in `GeminiResponse`. -/
structure GeminiCandidate where
  Content : GeminiContent
deriving DecidableEq, Repr

/-- The struct `GeminiResponse`, lines 32-40. -/
structure GeminiResponse where
  Candidates : List GeminiCandidate
deriving DecidableEq, Repr

/-! ## The store: table `tasks(id INTEGER PRIMARY KEY AUTOINCREMENT, title, description)` -/

/-- The table: its rows in rowid order of insertion, and the `sqlite_sequence`
entry of the table (the largest rowid ever assigned). -/
structure Store where
  rows : List Task
  seq : Int
deriving DecidableEq, Repr

/-- The SQL statements the handlers issue, with their bound arguments. -/
inductive Stmt where
  | selectAll
  | selectById (id : GoString)
  | insert (title description : GoString)
  | update (title description id : GoString)
  | delete (id : GoString)
deriving DecidableEq, Repr

/-- The largest rowid among the rows (0 for an empty table). -/
def Store.maxId (db : Store) : Int := db.rows.foldl (fun m r => max m r.ID) 0

/-- The rowid AUTOINCREMENT gives the next row: one more than the largest rowid
that ever existed in the table. -/
def Store.nextId (db : Store) : Int := max db.seq db.maxId + 1

/-- How the cursor of `db.Query("SELECT id, title, description FROM tasks")` can
fail: `db.Query` itself returns the error; or `rows.Next()` reports a failure
after `n` rows were delivered; or `rows.Scan` fails on the row of index `n`. -/
inductive RowsFault where
  | query (e : GoString)
  | next (n : Nat) (e : GoString)
  | scan (n : Nat) (e : GoString)
deriving DecidableEq, Repr

/-- The statement `db.QueryRow("SELECT ... WHERE id = ?", id).Scan(...)`: the first row whose id
the bound text compares equal to under SQLite's comparison `idEq`; the error is
the driver's, or `sql.ErrNoRows` when no row matches. -/
def Store.queryRow (idEq : GoString → Int → Bool) (fault : Option GoString) (db : Store)
    (id : GoString) : Except GoString Task :=
  match fault with
  | some e => Except.error e
  | none =>
    match db.rows.find? (fun r => idEq id r.ID) with
    | none => Except.error (utf8 "sql: no rows in result set")
    | some r => Except.ok r

/-- The statement `db.Exec("INSERT INTO tasks (title, description) VALUES (?, ?)", ...)` and
`result.LastInsertId()`: the new rowid and the table with the row appended.  A
failed statement leaves the table as it was; SQLite refuses the insert when the
largest rowid (2^63 - 1) has been used. -/
def Store.insert (fault : Option GoString) (db : Store) (title description : GoString) :
    Except GoString (Int × Store) :=
  match fault with
  | some e => Except.error e
  | none =>
    if db.nextId > 9223372036854775807 then Except.error (utf8 "database or disk is full")
    else Except.ok (db.nextId,
      { rows := db.rows ++ [⟨db.nextId, title, description⟩], seq := db.nextId })

/-- The statement `db.Exec("UPDATE tasks SET title = ?, description = ? WHERE id = ?", ...)`:
every matching row gets the new title and description. -/
def Store.update (idEq : GoString → Int → Bool) (fault : Option GoString) (db : Store)
    (title description id : GoString) : Except GoString Store :=
  match fault with
  | some e => Except.error e
  | none => Except.ok { db with rows := db.rows.map (fun r =>
      if idEq id r.ID then { r with Title := title, Description := description } else r) }

/-- The statement `db.Exec("DELETE FROM tasks WHERE id = ?", id)`: every matching
row goes. -/
def Store.delete (idEq : GoString → Int → Bool) (fault : Option GoString) (db : Store)
    (id : GoString) : Except GoString Store :=
  match fault with
  | some e => Except.error e
  | none => Except.ok { db with rows := db.rows.filter (fun r => !idEq id r.ID) }

/-! ## Replies, effects, outcomes -/

/-- The JSON value a handler passes to `c.JSON`. -/
inductive Body where
  | error (msg : GoString)
  | message (msg : GoString)
  | task (t : Task)
  | tasks (ts : List Task)
deriving DecidableEq, Repr

/-- What the handler does to the connection: one `c.JSON(status, body)`, or a
runtime panic (index or slice bound out of range). -/
inductive Reply where
  | json (status : Nat) (body : Body)
  | panic
deriving DecidableEq, Repr

/-- An external effect of a handler. -/
inductive Effect where
  | getenv (name : GoString)
  | post (url : GoString) (prompt : GoString)
  | print (text : GoString)
  | sql (stmt : Stmt)
deriving DecidableEq, Repr

/-- The result of running a handler: the reply, the store afterwards, and the
external effects in the order they were performed. -/
structure Outcome where
  reply : Reply
  db : Store
  trace : List Effect
deriving DecidableEq, Repr

/-- The effect is an outbound provider call. -/
def Effect.isPost : Effect → Bool
  | Effect.post _ _ => true
  | _ => false

/-- The effect is a store statement. -/
def Effect.isSql : Effect → Bool
  | Effect.sql _ => true
  | _ => false

/-! ## Handlers (`main.go` lines 86-310)

`body` is what `c.ShouldBindJSON(&t)` gives (the bound task or the binding
error), `param` is `c.Param("id")`, `call` what the one outbound request returns
(the transport error, or the response the handler reads), `fault` the error of the
one store statement if it fails, and `idEq` SQLite's comparison of the bound text
with a rowid in `WHERE id = ?`. -/

/-- The handler `getTasks`, lines 86-104.  An error of `db.Query` is answered
with 500, and so is an error of `rows.Scan` on a row the loop reaches; a failure
of `rows.Next()` only ends the loop (the handler never looks at `rows.Err()`), so
the rows read so far are answered with 200. -/
def getTasks (fault : Option RowsFault) (db : Store) : Outcome :=
  match fault with
  | some (RowsFault.query e) =>
    ⟨Reply.json 500 (Body.error e), db, [Effect.sql Stmt.selectAll]⟩
  | some (RowsFault.next n _) =>
    ⟨Reply.json 200 (Body.tasks (db.rows.take n)), db, [Effect.sql Stmt.selectAll]⟩
  | some (RowsFault.scan n e) =>
    if n < db.rows.length then ⟨Reply.json 500 (Body.error e), db, [Effect.sql Stmt.selectAll]⟩
    else ⟨Reply.json 200 (Body.tasks db.rows), db, [Effect.sql Stmt.selectAll]⟩
  | none => ⟨Reply.json 200 (Body.tasks db.rows), db, [Effect.sql Stmt.selectAll]⟩

/-- The handler `getTask`, lines 106-115: every error of the query, `sql.ErrNoRows` or not,
takes the one `err != nil` branch. -/
def getTask (idEq : GoString → Int → Bool) (param : GoString) (fault : Option GoString)
    (db : Store) : Outcome :=
  match db.queryRow idEq fault param with
  | Except.error _ =>
    ⟨Reply.json 404 (Body.error (utf8 "Task not found")), db, [Effect.sql (Stmt.selectById param)]⟩
  | Except.ok t => ⟨Reply.json 200 (Body.task t), db, [Effect.sql (Stmt.selectById param)]⟩

/-- The endpoint of Provider A, line 134. -/
def anthropicURL : GoString := utf8 "https://api.anthropic.com/v1/complete"

/-- The endpoint of Provider B, line 195. -/
def ollamaURL : GoString := utf8 "http://localhost:11434/api/generate"

/-- The endpoint of Provider C, line 284. -/
def geminiURL : GoString :=
  utf8 "https://generativelanguage.googleapis.com/v1/models/gemini-2.0-flash:generateContent"

/-- The handler `createTask`, lines 117-152.  `call` is the transport error or
`resp.Result().(*AIResponse)`. -/
def createTask (body : Except GoString Task) (call : Except GoString AIResponse)
    (fault : Option GoString) (db : Store) : Outcome :=
  match body with
  | Except.error e => ⟨Reply.json 400 (Body.error e), db, []⟩
  | Except.ok t =>
    let prompt := utf8 "Generate a short description for a task titled \x27" ++ t.Title ++ utf8 "\x27"
    match call with
    | Except.error _ =>
      ⟨Reply.json 500 (Body.error (utf8 "Failed to call AI")), db, [Effect.post anthropicURL prompt]⟩
    | Except.ok result =>
      let t1 : Task := { t with Description := result.Content }
      let trace := [Effect.post anthropicURL prompt,
        Effect.sql (Stmt.insert t1.Title t1.Description)]
      match db.insert fault t1.Title t1.Description with
      | Except.error e => ⟨Reply.json 500 (Body.error e), db, trace⟩
      | Except.ok (id, db1) => ⟨Reply.json 201 (Body.task { t1 with ID := id }), db1, trace⟩

/-- The handler `updateTask`, lines 154-168. -/
def updateTask (idEq : GoString → Int → Bool) (param : GoString) (body : Except GoString Task)
    (fault : Option GoString) (db : Store) : Outcome :=
  match body with
  | Except.error e => ⟨Reply.json 400 (Body.error e), db, []⟩
  | Except.ok t =>
    match db.update idEq fault t.Title t.Description param with
    | Except.error e =>
      ⟨Reply.json 500 (Body.error e), db, [Effect.sql (Stmt.update t.Title t.Description param)]⟩
    | Except.ok db1 =>
      ⟨Reply.json 200 (Body.message (utf8 "Task updated")), db1,
        [Effect.sql (Stmt.update t.Title t.Description param)]⟩

/-- The handler `deleteTask`, lines 170-178. -/
def deleteTask (idEq : GoString → Int → Bool) (param : GoString) (fault : Option GoString)
    (db : Store) : Outcome :=
  match db.delete idEq fault param with
  | Except.error e => ⟨Reply.json 500 (Body.error e), db, [Effect.sql (Stmt.delete param)]⟩
  | Except.ok db1 =>
    ⟨Reply.json 200 (Body.message (utf8 "Task deleted")), db1, [Effect.sql (Stmt.delete param)]⟩

/-- The loop of `createTaskOllama`, lines 209-233: the `strings.Builder` after
every line of the body has been visited.  `unmarshal` is `json.Unmarshal` into a
fresh `partialResponse` (`none` for a non-nil error). -/
def assembleDescription (unmarshal : GoString → Option PartialResponse)
    (responseBody : GoString) : GoString :=
  (splitLines responseBody).foldl (fun description line =>
    if line = [] then description
    else
      match unmarshal line with
      | none => description
      | some partialResponse => description ++ partialResponse.Response) []

/-- The Go slice expression `s[:n]`: the first `n` bytes, a runtime panic
(`none`) when `n` exceeds the length. -/
def slicePrefix (s : GoString) (n : Nat) : Option GoString :=
  if n ≤ s.length then some (s.take n) else none

/-- The trimming step of `createTaskOllama`, lines 235-238. -/
def trimDescription (description : GoString) : Option GoString :=
  if description.length > 500 then
    (slicePrefix description 500).map (fun head => head ++ utf8 "...")
  else some description

/-- The handler `createTaskOllama`, lines 180-249.  `call` is the transport error or
`resp.Body()`. -/
def createTaskOllama (unmarshal : GoString → Option PartialResponse)
    (body : Except GoString Task) (call : Except GoString GoString)
    (fault : Option GoString) (db : Store) : Outcome :=
  match body with
  | Except.error e => ⟨Reply.json 400 (Body.error e), db, []⟩
  | Except.ok t =>
    let prompt := utf8 "Generate a short description for a task titled \x27" ++ t.Title ++
      utf8 "\x27. Keep it under 100 characters."
    match call with
    | Except.error e =>
      ⟨Reply.json 500 (Body.error (utf8 "Failed to call Ollama: " ++ e)), db,
        [Effect.post ollamaURL prompt]⟩
    | Except.ok responseBody =>
      let printed := Effect.print (utf8 "Response from Ollama: " ++ responseBody ++ [0x0A])
      match trimDescription (assembleDescription unmarshal responseBody) with
      | none => ⟨Reply.panic, db, [Effect.post ollamaURL prompt, printed]⟩
      | some description =>
        let t1 : Task := { t with Description := description }
        let trace := [Effect.post ollamaURL prompt, printed,
          Effect.sql (Stmt.insert t1.Title t1.Description)]
        match db.insert fault t1.Title t1.Description with
        | Except.error e => ⟨Reply.json 500 (Body.error e), db, trace⟩
        | Except.ok (id, db1) => ⟨Reply.json 201 (Body.task { t1 with ID := id }), db1, trace⟩

/-- The handler `createTaskGemini`, lines 251-310.  `env` is the value of `GEMINI_API_KEY`
in the process environment (`os.Getenv` gives the empty string when it is
unset); `call` is the transport error or `resp.Result().(*GeminiResponse)`.  The
index expressions `Candidates[0]` and `Parts[0]` panic when out of range. -/
def createTaskGemini (body : Except GoString Task) (env : Option GoString)
    (call : Except GoString GeminiResponse) (fault : Option GoString) (db : Store) : Outcome :=
  match body with
  | Except.error e => ⟨Reply.json 400 (Body.error e), db, []⟩
  | Except.ok t =>
    let apiKey := env.getD []
    let read := Effect.getenv (utf8 "GEMINI_API_KEY")
    if apiKey = [] then
      ⟨Reply.json 500 (Body.error (utf8 "GEMINI_API_KEY not set")), db, [read]⟩
    else
      let prompt := utf8 "Generate a short description for a task titled \x27" ++ t.Title ++
        utf8 "\x27. Keep it concise and clear."
      let sent := [read, Effect.post geminiURL prompt]
      match call with
      | Except.error _ =>
        ⟨Reply.json 500 (Body.error (utf8 "Failed to call Gemini: %v")), db, sent⟩
      | Except.ok geminiResp =>
        let emptyReply : Outcome :=
          ⟨Reply.json 500 (Body.error (utf8 "Empty response from Gemini")), db, sent⟩
        if geminiResp.Candidates.length = 0 then emptyReply
        else
          match geminiResp.Candidates[0]? with
          | none => ⟨Reply.panic, db, sent⟩
          | some candidate =>
            if candidate.Content.Parts.length = 0 then emptyReply
            else
              match candidate.Content.Parts[0]? with
              | none => ⟨Reply.panic, db, sent⟩
              | some part =>
                let t1 : Task := { t with Description := part.Text }
                let trace := sent ++ [Effect.sql (Stmt.insert t1.Title t1.Description)]
                match db.insert fault t1.Title t1.Description with
                | Except.error e => ⟨Reply.json 500 (Body.error e), db, trace⟩
                | Except.ok (id, db1) =>
                  ⟨Reply.json 201 (Body.task { t1 with ID := id }), db1, trace⟩

/-! ## Auxiliary definitions for stating the theorems -/

/-- The status code of a reply, when there is one. -/
def Reply.status : Reply → Option Nat
  | Reply.json status _ => some status
  | Reply.panic => none

/-- The largest value of a Go `int` and of a SQLite rowid, 2^63 - 1. -/
def maxInt64 : Int := 9223372036854775807

/-- The value of an unsigned decimal numeral; `none` for any other text. -/
def decimalValue (text : GoString) : Option Nat :=
  if text = [] then none
  else text.foldl (fun acc c =>
    acc.bind (fun n => if isDigit c then some (10 * n + (c - 0x30)) else none)) (some 0)

/-- A comparison of a bound text with a rowid that agrees with SQLite on unsigned
decimal numerals within the rowid range: the text denotes the rowid.  SQLite
also converts other numeric spellings, which is why the handlers take the
comparison as a parameter; this one instantiates the theorems at concrete
inputs. -/
def decimalIdEq (text : GoString) (id : Int) : Bool :=
  match decimalValue text with
  | some n => decide ((n : Int) = id)
  | none => false

/-- A streamed body of one line whose `response` is the two-byte character U+00E9
followed by 500 letters `a` (501 characters, 502 bytes). -/
def sampleLongBody : GoString :=
  utf8 "\x7b\"response\":\"" ++ [0xC3, 0xA9] ++ List.replicate 500 0x61 ++
    utf8 "\",\"done\":true\x7d\n"

/-! ## Lemmas -/

theorem utf8_dots : utf8 "..." = [0x2E, 0x2E, 0x2E] := by decide

/-- The builder loop started from any prefix. -/
theorem assemble_foldl (unmarshal : GoString → Option PartialResponse) (lines : List GoString)
    (acc : GoString) :
    lines.foldl (fun description line =>
      if line = [] then description
      else
        match unmarshal line with
        | none => description
        | some partialResponse => description ++ partialResponse.Response) acc
    = acc ++ (((lines.filter (fun line => decide (line ≠ []))).filterMap unmarshal).map
        (fun p => p.Response)).flatten := by
  induction lines generalizing acc with
  | nil => simp
  | cons line rest ih =>
    rw [List.foldl_cons, ih]
    by_cases hl : line = []
    · simp [hl]
    · cases hu : unmarshal line with
      | none => simp [hl, List.filter_cons, List.filterMap_cons, hu]
      | some p => simp [hl, List.filter_cons, List.filterMap_cons, hu, List.append_assoc]

theorem jsonUnmarshal_valid (line : GoString) (p : PartialResponse)
    (h : jsonUnmarshal line = some p) : jsonValid line = true := by
  unfold jsonUnmarshal at h
  unfold jsonValid
  cases hp : parseJSON line with
  | none => simp [hp] at h
  | some v => simp

theorem runeCountFrom_ascii (s : GoString) (h : ∀ b ∈ s, b < 0x80) :
    runeCountFrom 0 s = s.length := by
  induction s with
  | nil => rfl
  | cons b rest ih =>
    have hb : b < 0x80 := h b (List.mem_cons_self _ _)
    have hw : runeWidth (b :: rest) = 1 := by simp [runeWidth, hb]
    simp only [runeCountFrom, hw, List.length_cons]
    rw [ih (fun c hc => h c (List.mem_cons_of_mem _ hc))]
    omega

theorem trimDescription_eq (s : GoString) :
    trimDescription s = some (if s.length ≤ 500 then s else s.take 500 ++ utf8 "...") := by
  unfold trimDescription slicePrefix
  by_cases h : s.length > 500
  · have h1 : 500 ≤ s.length := by omega
    have h2 : ¬ s.length ≤ 500 := by omega
    simp [h, h1, h2]
  · have h2 : s.length ≤ 500 := by omega
    simp [h, h2]

/-! ### The store -/

theorem foldl_max_ge (rows : List Task) (m : Int) :
    m ≤ rows.foldl (fun m r => max m r.ID) m ∧
    ∀ r ∈ rows, r.ID ≤ rows.foldl (fun m r => max m r.ID) m := by
  induction rows generalizing m with
  | nil => simp
  | cons a rest ih =>
    simp only [List.foldl_cons, List.mem_cons]
    have h1 := (ih (max m a.ID)).1
    have h2 := (ih (max m a.ID)).2
    refine ⟨le_trans (le_max_left _ _) h1, ?_⟩
    intro r hr
    rcases hr with h | h
    · rw [h]; exact le_trans (le_max_right _ _) h1
    · exact h2 r h

theorem lt_nextId (db : Store) (r : Task) (hr : r ∈ db.rows) : r.ID < db.nextId := by
  have h := (foldl_max_ge db.rows 0).2 r hr
  unfold Store.nextId Store.maxId
  have h2 : db.rows.foldl (fun m r => max m r.ID) 0 ≤ max db.seq (db.rows.foldl (fun m r => max m r.ID) 0) :=
    le_max_right _ _
  omega

theorem insert_ok (fault : Option GoString) (db db1 : Store) (title d : GoString) (id : Int)
    (h : db.insert fault title d = Except.ok (id, db1)) :
    id = db.nextId ∧ db1 = ⟨db.rows ++ [⟨db.nextId, title, d⟩], db.nextId⟩ := by
  unfold Store.insert at h
  cases fault with
  | some e => simp at h
  | none =>
    simp only at h
    split at h
    · simp at h
    · simp only [Except.ok.injEq, Prod.mk.injEq] at h
      exact ⟨h.1.symm, h.2.symm⟩

theorem insert_then_get (idEq : GoString → Int → Bool) (fault : Option GoString)
    (db db1 : Store) (title d : GoString) (id : Int) (param : GoString)
    (h : db.insert fault title d = Except.ok (id, db1))
    (hparam : ∀ j, idEq param j = decide (j = id)) :
    getTask idEq param none db1
      = ⟨Reply.json 200 (Body.task ⟨id, title, d⟩), db1, [Effect.sql (Stmt.selectById param)]⟩ ∧
    id = db.nextId := by
  obtain ⟨hid, hdb⟩ := insert_ok fault db db1 title d id h
  refine ⟨?_, hid⟩
  have hfind : db1.rows.find? (fun r => idEq param r.ID) = some ⟨id, title, d⟩ := by
    rw [hdb, ← hid]
    simp only [List.find?_append]
    have hnone : db.rows.find? (fun r => idEq param r.ID) = none := by
      rw [List.find?_eq_none]
      intro r hr
      have hlt := lt_nextId db r hr
      rw [hparam]
      simp
      omega
    rw [hnone]
    simp [hparam]
  simp only [getTask, Store.queryRow, hfind]

/-- A failure of `rows.Next()` in `getTasks` is not reported: the reply is 200
with the rows read before it; a failure of `db.Query` is answered with 500. -/
theorem getTasks_faults (n : Nat) (e : GoString) (db : Store) :
    (getTasks (some (RowsFault.next n e)) db).reply
      = Reply.json 200 (Body.tasks (db.rows.take n)) ∧
    (getTasks (some (RowsFault.query e)) db).reply = Reply.json 500 (Body.error e) ∧
    (getTasks none db).reply = Reply.json 200 (Body.tasks db.rows) :=
  ⟨rfl, rfl, rfl⟩

/-! ### The Provider B handler -/

/-- The handler `createTaskOllama` on a bound body, a returned provider call and
an insert that succeeds. -/
theorem createTaskOllama_created (unmarshal : GoString → Option PartialResponse) (t : Task)
    (responseBody d : GoString) (db : Store)
    (htrim : trimDescription (assembleDescription unmarshal responseBody) = some d)
    (hroom : db.nextId ≤ maxInt64) :
    createTaskOllama unmarshal (Except.ok t) (Except.ok responseBody) none db
      = ⟨Reply.json 201 (Body.task ⟨db.nextId, t.Title, d⟩),
          ⟨db.rows ++ [⟨db.nextId, t.Title, d⟩], db.nextId⟩,
          [Effect.post ollamaURL
              (utf8 "Generate a short description for a task titled \x27" ++ t.Title ++
                utf8 "\x27. Keep it under 100 characters."),
            Effect.print (utf8 "Response from Ollama: " ++ responseBody ++ [0x0A]),
            Effect.sql (Stmt.insert t.Title d)]⟩ := by
  have h1 : ¬ db.nextId > 9223372036854775807 := by
    unfold maxInt64 at hroom; omega
  simp [createTaskOllama, htrim, Store.insert, h1]

/-- The store after `createTaskOllama` on a bound body and a returned provider
call: untouched, or with exactly the one new row. -/
theorem createTaskOllama_store (unmarshal : GoString → Option PartialResponse) (t : Task)
    (responseBody d : GoString) (fault : Option GoString) (db : Store)
    (htrim : trimDescription (assembleDescription unmarshal responseBody) = some d) :
    (createTaskOllama unmarshal (Except.ok t) (Except.ok responseBody) fault db).db = db ∨
    (createTaskOllama unmarshal (Except.ok t) (Except.ok responseBody) fault db).db
      = ⟨db.rows ++ [⟨db.nextId, t.Title, d⟩], db.nextId⟩ := by
  cases hins : db.insert fault t.Title d with
  | error e => left; simp [createTaskOllama, htrim, hins]
  | ok p =>
    obtain ⟨id, db1⟩ := p
    right
    have := (insert_ok fault db db1 t.Title d id hins).2
    simp [createTaskOllama, htrim, hins, this]

/-! ## The parser's fuel is enough -/

theorem skipSpace_length_le (s : GoString) : (skipSpace s).length ≤ s.length := by
  induction s with
  | nil => simp [skipSpace]
  | cons c cs ih =>
    unfold skipSpace
    split
    · exact Nat.le_succ_of_le ih
    · exact Nat.le_refl _

theorem scanString_length_le (inp : GoString) :
    ∀ (skip : Nat) (acc s r : GoString),
      scanString skip inp acc = some (s, r) → r.length ≤ inp.length := by
  induction inp with
  | nil => intro skip acc s r h; cases skip <;> simp [scanString] at h
  | cons c rest ih =>
    intro skip acc s r h
    cases skip with
    | succ k =>
      rw [scanString] at h
      exact Nat.le_succ_of_le (ih k acc s r h)
    | zero =>
      rw [scanString] at h
      cases hstep : stringStep c rest with
      | close =>
        rw [hstep] at h
        simp only [Option.some.injEq, Prod.mk.injEq] at h
        rw [← h.2]; exact Nat.le_succ _
      | fail => rw [hstep] at h; simp at h
      | emit out k =>
        rw [hstep] at h
        exact Nat.le_succ_of_le (ih k (acc ++ out) s r h)

theorem dropWhile_length_le (p : Nat → Bool) (l : GoString) :
    (l.dropWhile p).length ≤ l.length := by
  induction l with
  | nil => simp
  | cons a t ih =>
    rw [List.dropWhile_cons]
    split
    · exact Nat.le_succ_of_le ih
    · exact Nat.le_refl _

theorem scanDigits_length_le (inp d r : GoString) (h : scanDigits inp = some (d, r)) :
    r.length ≤ inp.length := by
  unfold scanDigits at h
  split at h
  · simp at h
  · simp only [Option.some.injEq, Prod.mk.injEq] at h
    rw [← h.2]; exact dropWhile_length_le _ _

theorem scanInt_length_le (inp d r : GoString) (h : scanInt inp = some (d, r)) :
    r.length ≤ inp.length := by
  unfold scanInt at h
  have hd := dropWhile_length_le isDigit
  split at h
  · simp at h
  · rename_i c r0
    split at h
    · split at h
      · simp at h
      · rename_i d0 r1
        have := hd r1
        split at h
        · simp only [Option.some.injEq, Prod.mk.injEq] at h
          rw [← h.2]; simp only [List.length_cons]; omega
        · split at h
          · simp only [Option.some.injEq, Prod.mk.injEq] at h
            rw [← h.2]; simp only [List.length_cons]; omega
          · simp at h
    · have := hd r0
      split at h
      · simp only [Option.some.injEq, Prod.mk.injEq] at h
        rw [← h.2]; simp only [List.length_cons]; omega
      · split at h
        · simp only [Option.some.injEq, Prod.mk.injEq] at h
          rw [← h.2]; simp only [List.length_cons]; omega
        · simp at h

theorem scanFrac_length_le (inp d r : GoString) (h : scanFrac inp = some (d, r)) :
    r.length ≤ inp.length := by
  unfold scanFrac at h
  split at h
  · simp only [Option.some.injEq, Prod.mk.injEq] at h
    rw [← h.2]
  · rename_i c r0
    split at h
    · cases hs : scanDigits r0 with
      | none => rw [hs] at h; simp at h
      | some p =>
        rw [hs] at h
        simp only [Option.map_some', Option.some.injEq, Prod.mk.injEq] at h
        have := scanDigits_length_le r0 p.1 p.2 hs
        rw [← h.2]; simp only [List.length_cons]; omega
    · simp only [Option.some.injEq, Prod.mk.injEq] at h
      rw [← h.2]

theorem scanExp_length_le (inp d r : GoString) (h : scanExp inp = some (d, r)) :
    r.length ≤ inp.length := by
  unfold scanExp at h
  split at h
  · simp only [Option.some.injEq, Prod.mk.injEq] at h
    rw [← h.2]
  · rename_i c r0
    split at h
    · split at h
      · simp at h
      · rename_i s r1
        split at h
        · cases hs : scanDigits r1 with
          | none => rw [hs] at h; simp at h
          | some p =>
            rw [hs] at h
            simp only [Option.map_some', Option.some.injEq, Prod.mk.injEq] at h
            have := scanDigits_length_le r1 p.1 p.2 hs
            rw [← h.2]; simp only [List.length_cons]; omega
        · cases hs : scanDigits (s :: r1) with
          | none => rw [hs] at h; simp at h
          | some p =>
            rw [hs] at h
            simp only [Option.map_some', Option.some.injEq, Prod.mk.injEq] at h
            have := scanDigits_length_le (s :: r1) p.1 p.2 hs
            rw [← h.2]; simp only [List.length_cons] at this ⊢; omega
    · simp only [Option.some.injEq, Prod.mk.injEq] at h
      rw [← h.2]

theorem scanNumber_length_le (inp d r : GoString) (h : scanNumber inp = some (d, r)) :
    r.length ≤ inp.length := by
  unfold scanNumber at h
  cases h1 : scanInt inp with
  | none => rw [h1] at h; simp at h
  | some p1 =>
    obtain ⟨ip, r1⟩ := p1
    rw [h1] at h; simp only at h
    cases h2 : scanFrac r1 with
    | none => rw [h2] at h; simp at h
    | some p2 =>
      obtain ⟨fp, r2⟩ := p2
      rw [h2] at h; simp only at h
      cases h3 : scanExp r2 with
      | none => rw [h3] at h; simp at h
      | some p3 =>
        obtain ⟨ep, r3⟩ := p3
        rw [h3] at h
        simp only [Option.some.injEq, Prod.mk.injEq] at h
        have a1 := scanInt_length_le inp ip r1 h1
        have a2 := scanFrac_length_le r1 fp r2 h2
        have a3 := scanExp_length_le r2 ep r3 h3
        rw [← h.2]; omega

theorem stripLiteral_length_le (lit inp r : GoString) (h : stripLiteral lit inp = some r) :
    r.length ≤ inp.length := by
  unfold stripLiteral at h
  split at h
  · simp only [Option.some.injEq] at h
    rw [← h, List.length_drop]; omega
  · simp at h

theorem parse_length_le (fuel : Nat) :
    (∀ depth inp v r, parseValue fuel depth inp = some (v, r) → r.length ≤ inp.length) ∧
    (∀ depth inp vs r, parseElems fuel depth inp = some (vs, r) → r.length ≤ inp.length) ∧
    (∀ depth inp ms r, parseMembers fuel depth inp = some (ms, r) → r.length ≤ inp.length) := by
  induction fuel with
  | zero =>
    refine ⟨?_, ?_, ?_⟩ <;> intro depth inp v r h
    · simp [parseValue] at h
    · simp [parseElems] at h
    · simp [parseMembers] at h
  | succ f ih =>
    obtain ⟨ihV, ihE, ihM⟩ := ih
    refine ⟨?_, ?_, ?_⟩
    · intro depth inp v r h
      rw [parseValue] at h
      have hsp := skipSpace_length_le inp
      cases hs : skipSpace inp with
      | nil => rw [hs] at h; simp at h
      | cons c rest =>
        rw [hs] at h hsp
        simp only [List.length_cons] at hsp
        simp only at h
        by_cases h1 : c = 0x7B
        · rw [if_pos h1] at h
          by_cases hd : maxNestingDepth ≤ depth
          · rw [if_pos hd] at h; simp at h
          · rw [if_neg hd] at h
            have hsp2 := skipSpace_length_le rest
            cases hs2 : skipSpace rest with
            | nil => rw [hs2] at h; simp at h
            | cons d r0 =>
              rw [hs2] at h hsp2
              simp only [List.length_cons] at hsp2
              simp only at h
              by_cases h2 : d = 0x7D
              · rw [if_pos h2] at h
                simp only [Option.some.injEq, Prod.mk.injEq] at h
                rw [← h.2]; omega
              · rw [if_neg h2] at h
                cases hm : parseMembers f (depth + 1) (d :: r0) with
                | none => rw [hm] at h; simp at h
                | some p =>
                  rw [hm] at h
                  simp only [Option.map_some', Option.some.injEq, Prod.mk.injEq] at h
                  have := ihM (depth + 1) (d :: r0) p.1 p.2 hm
                  simp only [List.length_cons] at this
                  rw [← h.2]; omega
        · rw [if_neg h1] at h
          by_cases h3 : c = 0x5B
          · rw [if_pos h3] at h
            by_cases hd : maxNestingDepth ≤ depth
            · rw [if_pos hd] at h; simp at h
            · rw [if_neg hd] at h
              have hsp2 := skipSpace_length_le rest
              cases hs2 : skipSpace rest with
              | nil => rw [hs2] at h; simp at h
              | cons d r0 =>
                rw [hs2] at h hsp2
                simp only [List.length_cons] at hsp2
                simp only at h
                by_cases h2 : d = 0x5D
                · rw [if_pos h2] at h
                  simp only [Option.some.injEq, Prod.mk.injEq] at h
                  rw [← h.2]; omega
                · rw [if_neg h2] at h
                  cases hm : parseElems f (depth + 1) (d :: r0) with
                  | none => rw [hm] at h; simp at h
                  | some p =>
                    rw [hm] at h
                    simp only [Option.map_some', Option.some.injEq, Prod.mk.injEq] at h
                    have := ihE (depth + 1) (d :: r0) p.1 p.2 hm
                    simp only [List.length_cons] at this
                    rw [← h.2]; omega
          · rw [if_neg h3] at h
            by_cases h4 : c = 0x22
            · rw [if_pos h4] at h
              cases hm : scanString 0 rest [] with
              | none => rw [hm] at h; simp at h
              | some p =>
                rw [hm] at h
                simp only [Option.map_some', Option.some.injEq, Prod.mk.injEq] at h
                have := scanString_length_le rest 0 [] p.1 p.2 hm
                rw [← h.2]; omega
            · rw [if_neg h4] at h
              by_cases h5 : c = 0x2D ∨ isDigit c = true
              · rw [if_pos h5] at h
                cases hm : scanNumber (c :: rest) with
                | none => rw [hm] at h; simp at h
                | some p =>
                  rw [hm] at h
                  simp only [Option.map_some', Option.some.injEq, Prod.mk.injEq] at h
                  have := scanNumber_length_le (c :: rest) p.1 p.2 hm
                  simp only [List.length_cons] at this
                  rw [← h.2]; omega
              · rw [if_neg h5] at h
                have lit : ∀ (l : GoString) (w : JValue),
                    (stripLiteral l (c :: rest)).map (fun r => (w, r)) = some (v, r) →
                    r.length ≤ inp.length := by
                  intro l w hl
                  cases hm : stripLiteral l (c :: rest) with
                  | none => rw [hm] at hl; simp at hl
                  | some p =>
                    rw [hm] at hl
                    simp only [Option.map_some', Option.some.injEq, Prod.mk.injEq] at hl
                    have := stripLiteral_length_le l (c :: rest) p hm
                    simp only [List.length_cons] at this
                    rw [← hl.2]; omega
                by_cases h6 : c = 0x74
                · rw [if_pos h6] at h; exact lit _ _ h
                · rw [if_neg h6] at h
                  by_cases h7 : c = 0x66
                  · rw [if_pos h7] at h; exact lit _ _ h
                  · rw [if_neg h7] at h
                    by_cases h8 : c = 0x6E
                    · rw [if_pos h8] at h; exact lit _ _ h
                    · rw [if_neg h8] at h; simp at h
    · intro depth inp vs r h
      rw [parseElems] at h
      cases hv : parseValue f depth inp with
      | none => rw [hv] at h; simp at h
      | some p =>
        obtain ⟨v, r0⟩ := p
        rw [hv] at h
        simp only at h
        have a1 := ihV depth inp v r0 hv
        have hsp := skipSpace_length_le r0
        cases hs : skipSpace r0 with
        | nil => rw [hs] at h; simp at h
        | cons d r1 =>
          rw [hs] at h hsp
          simp only [List.length_cons] at hsp
          simp only at h
          by_cases h1 : d = 0x2C
          · rw [if_pos h1] at h
            cases hm : parseElems f depth r1 with
            | none => rw [hm] at h; simp at h
            | some q =>
              rw [hm] at h
              simp only [Option.map_some', Option.some.injEq, Prod.mk.injEq] at h
              have := ihE depth r1 q.1 q.2 hm
              rw [← h.2]; omega
          · rw [if_neg h1] at h
            by_cases h2 : d = 0x5D
            · rw [if_pos h2] at h
              simp only [Option.some.injEq, Prod.mk.injEq] at h
              rw [← h.2]; omega
            · rw [if_neg h2] at h; simp at h
    · intro depth inp ms r h
      rw [parseMembers] at h
      have hsp := skipSpace_length_le inp
      cases hs : skipSpace inp with
      | nil => rw [hs] at h; simp at h
      | cons q r0 =>
        rw [hs] at h hsp
        simp only [List.length_cons] at hsp
        simp only at h
        by_cases hq : q = 0x22
        · rw [if_pos hq] at h
          cases hk : scanString 0 r0 [] with
          | none => rw [hk] at h; simp at h
          | some p =>
            obtain ⟨key, r1⟩ := p
            rw [hk] at h
            simp only at h
            have a1 := scanString_length_le r0 0 [] key r1 hk
            have hsp1 := skipSpace_length_le r1
            cases hs1 : skipSpace r1 with
            | nil => rw [hs1] at h; simp at h
            | cons colon r2 =>
              rw [hs1] at h hsp1
              simp only [List.length_cons] at hsp1
              simp only at h
              by_cases hc : colon = 0x3A
              · rw [if_pos hc] at h
                cases hv : parseValue f depth r2 with
                | none => rw [hv] at h; simp at h
                | some pv =>
                  obtain ⟨v, r3⟩ := pv
                  rw [hv] at h
                  simp only at h
                  have a2 := ihV depth r2 v r3 hv
                  have hsp3 := skipSpace_length_le r3
                  cases hs3 : skipSpace r3 with
                  | nil => rw [hs3] at h; simp at h
                  | cons d r4 =>
                    rw [hs3] at h hsp3
                    simp only [List.length_cons] at hsp3
                    simp only at h
                    by_cases h1 : d = 0x2C
                    · rw [if_pos h1] at h
                      cases hm : parseMembers f depth r4 with
                      | none => rw [hm] at h; simp at h
                      | some pm =>
                        rw [hm] at h
                        simp only [Option.map_some', Option.some.injEq, Prod.mk.injEq] at h
                        have := ihM depth r4 pm.1 pm.2 hm
                        rw [← h.2]; omega
                    · rw [if_neg h1] at h
                      by_cases h2 : d = 0x7D
                      · rw [if_pos h2] at h
                        simp only [Option.some.injEq, Prod.mk.injEq] at h
                        rw [← h.2]; omega
                      · rw [if_neg h2] at h; simp at h
              · rw [if_neg hc] at h; simp at h
        · rw [if_neg hq] at h; simp at h

theorem parse_fuel_succ (fuel : Nat) :
    (∀ depth inp, 2 * inp.length + 1 ≤ fuel →
      parseValue (fuel + 1) depth inp = parseValue fuel depth inp) ∧
    (∀ depth inp, 2 * inp.length + 2 ≤ fuel →
      parseElems (fuel + 1) depth inp = parseElems fuel depth inp) ∧
    (∀ depth inp, 2 * inp.length + 2 ≤ fuel →
      parseMembers (fuel + 1) depth inp = parseMembers fuel depth inp) := by
  induction fuel with
  | zero =>
    refine ⟨?_, ?_, ?_⟩ <;> intro depth inp h <;> omega
  | succ f ih =>
    obtain ⟨ihV, ihE, ihM⟩ := ih
    refine ⟨?_, ?_, ?_⟩
    · intro depth inp hf
      conv_lhs => rw [parseValue]
      conv_rhs => rw [parseValue]
      have hsp := skipSpace_length_le inp
      cases hs : skipSpace inp with
      | nil => rfl
      | cons c rest =>
        rw [hs] at hsp
        simp only [List.length_cons] at hsp
        simp only
        by_cases h1 : c = 0x7B
        · rw [if_pos h1, if_pos h1]
          by_cases hd : maxNestingDepth ≤ depth
          · rw [if_pos hd, if_pos hd]
          · rw [if_neg hd, if_neg hd]
            have hsp2 := skipSpace_length_le rest
            cases hs2 : skipSpace rest with
            | nil => rfl
            | cons d r0 =>
              rw [hs2] at hsp2
              simp only [List.length_cons] at hsp2
              simp only
              rw [ihM (depth + 1) (d :: r0) (by simp only [List.length_cons]; omega)]
        · rw [if_neg h1, if_neg h1]
          by_cases h3 : c = 0x5B
          · rw [if_pos h3, if_pos h3]
            by_cases hd : maxNestingDepth ≤ depth
            · rw [if_pos hd, if_pos hd]
            · rw [if_neg hd, if_neg hd]
              have hsp2 := skipSpace_length_le rest
              cases hs2 : skipSpace rest with
              | nil => rfl
              | cons d r0 =>
                rw [hs2] at hsp2
                simp only [List.length_cons] at hsp2
                simp only
                rw [ihE (depth + 1) (d :: r0) (by simp only [List.length_cons]; omega)]
          · rw [if_neg h3, if_neg h3]
    · intro depth inp hf
      conv_lhs => rw [parseElems]
      conv_rhs => rw [parseElems]
      rw [ihV depth inp (by omega)]
      cases hv : parseValue f depth inp with
      | none => rfl
      | some p =>
        obtain ⟨v, r0⟩ := p
        simp only
        have a1 := (parse_length_le f).1 depth inp v r0 hv
        have hsp := skipSpace_length_le r0
        cases hs : skipSpace r0 with
        | nil => rfl
        | cons d r1 =>
          rw [hs] at hsp
          simp only [List.length_cons] at hsp
          simp only
          rw [ihE depth r1 (by omega)]
    · intro depth inp hf
      conv_lhs => rw [parseMembers]
      conv_rhs => rw [parseMembers]
      have hsp := skipSpace_length_le inp
      cases hs : skipSpace inp with
      | nil => rfl
      | cons q r0 =>
        rw [hs] at hsp
        simp only [List.length_cons] at hsp
        simp only
        by_cases hq : q = 0x22
        · rw [if_pos hq, if_pos hq]
          cases hk : scanString 0 r0 [] with
          | none => rfl
          | some p =>
            obtain ⟨key, r1⟩ := p
            simp only
            have a1 := scanString_length_le r0 0 [] key r1 hk
            have hsp1 := skipSpace_length_le r1
            cases hs1 : skipSpace r1 with
            | nil => rfl
            | cons colon r2 =>
              rw [hs1] at hsp1
              simp only [List.length_cons] at hsp1
              simp only
              by_cases hc : colon = 0x3A
              · rw [if_pos hc, if_pos hc]
                rw [ihV depth r2 (by omega)]
                cases hv : parseValue f depth r2 with
                | none => rfl
                | some pv =>
                  obtain ⟨v, r3⟩ := pv
                  simp only
                  have a2 := (parse_length_le f).1 depth r2 v r3 hv
                  have hsp3 := skipSpace_length_le r3
                  cases hs3 : skipSpace r3 with
                  | nil => rfl
                  | cons d r4 =>
                    rw [hs3] at hsp3
                    simp only [List.length_cons] at hsp3
                    simp only
                    rw [ihM depth r4 (by omega)]
              · rw [if_neg hc, if_neg hc]
        · rw [if_neg hq, if_neg hq]

/-- Beyond twice the input length plus one, more fuel never changes the result of
`parseValue`: the fuel `parseJSON` supplies is enough. -/
theorem parseValue_fuel_enough (inp : GoString) (depth extra : Nat) :
    parseValue (2 * inp.length + 2 + extra) depth inp
      = parseValue (2 * inp.length + 2) depth inp := by
  induction extra with
  | zero => rfl
  | succ n ih =>
    rw [← ih]
    exact (parse_fuel_succ (2 * inp.length + 2 + n)).1 depth inp (by omega)

/-! ## `strings.Split` on line feeds -/

theorem splitLines_ne_nil (s : GoString) : splitLines s ≠ [] := by
  cases s with
  | nil => simp [splitLines]
  | cons c cs =>
    unfold splitLines
    split
    · simp
    · split <;> simp

/-- Joining the pieces with line feeds gives the text back. -/
theorem splitLines_intercalate (s : GoString) :
    List.intercalate [0x0A] (splitLines s) = s := by
  induction s with
  | nil => simp [splitLines, List.intercalate]
  | cons c cs ih =>
    unfold splitLines
    by_cases hc : c = 0x0A
    · rw [if_pos hc]
      cases hs : splitLines cs with
      | nil => exact absurd hs (splitLines_ne_nil cs)
      | cons l ls =>
        rw [hs] at ih
        rw [← ih, hc]
        simp [List.intercalate, List.intersperse]
    · rw [if_neg hc]
      cases hs : splitLines cs with
      | nil => exact absurd hs (splitLines_ne_nil cs)
      | cons l ls =>
        rw [hs] at ih
        simp only
        rw [← ih]
        cases ls <;> simp [List.intercalate, List.intersperse]

/-- No piece contains a line feed. -/
theorem splitLines_no_lf (s : GoString) : ∀ l ∈ splitLines s, 0x0A ∉ l := by
  induction s with
  | nil => simp [splitLines]
  | cons c cs ih =>
    unfold splitLines
    by_cases hc : c = 0x0A
    · rw [if_pos hc]
      intro l hl
      rcases List.mem_cons.mp hl with h | h
      · rw [h]; simp
      · exact ih l h
    · rw [if_neg hc]
      cases hs : splitLines cs with
      | nil => exact absurd hs (splitLines_ne_nil cs)
      | cons l0 ls =>
        rw [hs] at ih
        simp only
        intro l hl
        rcases List.mem_cons.mp hl with h | h
        · rw [h]
          intro hmem
          rcases List.mem_cons.mp hmem with h1 | h1
          · exact hc h1.symm
          · exact ih l0 (List.mem_cons_self _ _) h1
        · exact ih l (List.mem_cons_of_mem _ h)

/-! ## Provider B: truncation -/

/-- C10. Byte-level truncation in `createTaskOllama`: the trimming step never
panics; its result is the text itself when it has at most 500 bytes and the
first 500 bytes followed by "..." otherwise; the result has at most 503 bytes;
and trimming the result again gives the result back.  In the handler, for an
assembled text `s`, that result is the description bound to the INSERT
statement; when the insert succeeds it is the description of the row appended to
the store and of the task in the 201 reply; and whatever the store does, the
store afterwards is either untouched or has exactly that one row more. -/
theorem trimDescription_bytes (s : GoString) :
    (∃ d, trimDescription s = some d ∧
      d = (if s.length ≤ 500 then s else s.take 500 ++ [0x2E, 0x2E, 0x2E]) ∧
      d.length ≤ 503 ∧
      trimDescription d = some d) ∧
    (∀ (unmarshal : GoString → Option PartialResponse) (t : Task) (responseBody : GoString)
      (fault : Option GoString) (db : Store),
      assembleDescription unmarshal responseBody = s →
      (createTaskOllama unmarshal (Except.ok t) (Except.ok responseBody) fault db).reply
        ≠ Reply.panic ∧
      Effect.sql (Stmt.insert t.Title
          (if s.length ≤ 500 then s else s.take 500 ++ [0x2E, 0x2E, 0x2E]))
        ∈ (createTaskOllama unmarshal (Except.ok t) (Except.ok responseBody) fault db).trace ∧
      (fault = none → db.nextId ≤ maxInt64 →
        createTaskOllama unmarshal (Except.ok t) (Except.ok responseBody) fault db
          = ⟨Reply.json 201 (Body.task ⟨db.nextId, t.Title,
                if s.length ≤ 500 then s else s.take 500 ++ [0x2E, 0x2E, 0x2E]⟩),
              ⟨db.rows ++ [⟨db.nextId, t.Title,
                if s.length ≤ 500 then s else s.take 500 ++ [0x2E, 0x2E, 0x2E]⟩], db.nextId⟩,
              [Effect.post ollamaURL
                  (utf8 "Generate a short description for a task titled \x27" ++ t.Title ++
                    utf8 "\x27. Keep it under 100 characters."),
                Effect.print (utf8 "Response from Ollama: " ++ responseBody ++ [0x0A]),
                Effect.sql (Stmt.insert t.Title
                  (if s.length ≤ 500 then s else s.take 500 ++ [0x2E, 0x2E, 0x2E]))]⟩) ∧
      ((createTaskOllama unmarshal (Except.ok t) (Except.ok responseBody) fault db).db = db ∨
        (createTaskOllama unmarshal (Except.ok t) (Except.ok responseBody) fault db).db
          = ⟨db.rows ++ [⟨db.nextId, t.Title,
              if s.length ≤ 500 then s else s.take 500 ++ [0x2E, 0x2E, 0x2E]⟩], db.nextId⟩)) := by
  refine ⟨⟨if s.length ≤ 500 then s else s.take 500 ++ [0x2E, 0x2E, 0x2E], ?_, rfl, ?_, ?_⟩, ?_⟩
  · rw [trimDescription_eq, utf8_dots]
  · by_cases h : s.length ≤ 500
    · simp only [h, if_true]; omega
    · simp only [h, if_false, List.length_append, List.length_take, List.length_cons,
        List.length_nil]
      omega
  · rw [trimDescription_eq, utf8_dots]
    by_cases h : s.length ≤ 500
    · simp [h]
    · have hlen : (List.take 500 s ++ [0x2E, 0x2E, 0x2E]).length = 503 := by
        simp only [List.length_append, List.length_take, List.length_cons, List.length_nil]
        omega
      have htake : List.take 500 (List.take 500 s ++ [0x2E, 0x2E, 0x2E]) = List.take 500 s := by
        rw [List.take_append_of_le_length (by simp only [List.length_take]; omega)]
        simp [List.take_take]
      simp only [h, if_false, hlen, htake]
      simp
  · intro unmarshal t responseBody fault db hs
    have htrim : trimDescription (assembleDescription unmarshal responseBody)
        = some (if s.length ≤ 500 then s else s.take 500 ++ [0x2E, 0x2E, 0x2E]) := by
      rw [hs, trimDescription_eq, utf8_dots]
    refine ⟨?_, ?_, ?_, createTaskOllama_store unmarshal t responseBody _ fault db htrim⟩
    · cases hins : db.insert fault t.Title
          (if s.length ≤ 500 then s else s.take 500 ++ [0x2E, 0x2E, 0x2E]) with
      | error e => simp [createTaskOllama, htrim, hins]
      | ok p => simp [createTaskOllama, htrim, hins]
    · cases hins : db.insert fault t.Title
          (if s.length ≤ 500 then s else s.take 500 ++ [0x2E, 0x2E, 0x2E]) with
      | error e => simp [createTaskOllama, htrim, hins]
      | ok p => simp [createTaskOllama, htrim, hins]
    · intro hf hroom
      subst hf
      exact createTaskOllama_created unmarshal t responseBody _ db htrim hroom

/-- Witness for `trimDescription_bytes`: POST /tasks/ollama on an empty store with
the two-line body of the specification stores and returns "Hello" untrimmed. -/
theorem trimDescription_bytes_witness :
    (createTaskOllama jsonUnmarshal (Except.ok ⟨0, utf8 "Greet", []⟩)
        (Except.ok (utf8 "\x7b\"response\":\"Hel\",\"done\":false\x7d\n\x7b\"response\":\"lo\",\"done\":true\x7d\n"))
        none ⟨[], 0⟩).db.rows
      = [⟨1, utf8 "Greet", utf8 "Hello"⟩] :=
  (congrArg (fun o => o.db.rows)
    (((trimDescription_bytes (utf8 "Hello")).2 jsonUnmarshal ⟨0, utf8 "Greet", []⟩
      (utf8 "\x7b\"response\":\"Hel\",\"done\":false\x7d\n\x7b\"response\":\"lo\",\"done\":true\x7d\n")
      none ⟨[], 0⟩ (by decide!)).2.2.1 rfl (by decide!))).trans (by decide!)

/-- C2, as stated, fails: a text of 501 characters, the two-byte character U+00E9
followed by 500 letters `a`, is longer than 500 characters; what is stored keeps
only its first 499 characters (500 bytes) and has 502 characters, not 503.  The
handler, given a streamed line that carries this text, stores and returns
exactly that. -/
theorem trimDescription_counts_bytes_not_characters :
    runeCount ([0xC3, 0xA9] ++ List.replicate 500 0x61) = 501 ∧
    trimDescription ([0xC3, 0xA9] ++ List.replicate 500 0x61)
      = some ([0xC3, 0xA9] ++ List.replicate 498 0x61 ++ [0x2E, 0x2E, 0x2E]) ∧
    (trimDescription ([0xC3, 0xA9] ++ List.replicate 500 0x61)).map runeCount = some 502 ∧
    assembleDescription jsonUnmarshal sampleLongBody
      = [0xC3, 0xA9] ++ List.replicate 500 0x61 ∧
    (createTaskOllama jsonUnmarshal (Except.ok ⟨0, utf8 "T", []⟩) (Except.ok sampleLongBody)
        none ⟨[], 0⟩).reply
      = Reply.json 201 (Body.task
          ⟨1, utf8 "T", [0xC3, 0xA9] ++ List.replicate 498 0x61 ++ [0x2E, 0x2E, 0x2E]⟩) ∧
    (createTaskOllama jsonUnmarshal (Except.ok ⟨0, utf8 "T", []⟩) (Except.ok sampleLongBody)
        none ⟨[], 0⟩).db.rows
      = [⟨1, utf8 "T", [0xC3, 0xA9] ++ List.replicate 498 0x61 ++ [0x2E, 0x2E, 0x2E]⟩] := by
  decide!

/-- C2, amended. Provider B truncation counts bytes: for a reassembled
description `s` longer than 500 bytes, the trimming step gives exactly its first
500 bytes followed by the 3-byte suffix "..." (503 bytes in total), and when
every byte of `s` is an ASCII character this is its first 500 characters and 503
characters in total; when the insert succeeds, `createTaskOllama` appends to the
store one row with exactly that description and replies 201 with it; and
whatever the store does, the store afterwards is either untouched or has exactly
that one row more. -/
theorem trimDescription_long (s : GoString) (hlong : 500 < s.length) :
    trimDescription s = some (s.take 500 ++ utf8 "...") ∧
    (s.take 500).length = 500 ∧
    (s.take 500 ++ utf8 "...").length = 503 ∧
    ((∀ b ∈ s, b < 0x80) →
      runeCount (s.take 500) = 500 ∧ runeCount (s.take 500 ++ utf8 "...") = 503) ∧
    (∀ (unmarshal : GoString → Option PartialResponse) (t : Task) (responseBody : GoString)
      (db : Store),
      assembleDescription unmarshal responseBody = s → db.nextId ≤ maxInt64 →
      createTaskOllama unmarshal (Except.ok t) (Except.ok responseBody) none db
        = ⟨Reply.json 201 (Body.task ⟨db.nextId, t.Title, s.take 500 ++ utf8 "..."⟩),
            ⟨db.rows ++ [⟨db.nextId, t.Title, s.take 500 ++ utf8 "..."⟩], db.nextId⟩,
            [Effect.post ollamaURL
                (utf8 "Generate a short description for a task titled \x27" ++ t.Title ++
                  utf8 "\x27. Keep it under 100 characters."),
              Effect.print (utf8 "Response from Ollama: " ++ responseBody ++ [0x0A]),
              Effect.sql (Stmt.insert t.Title (s.take 500 ++ utf8 "..."))]⟩) ∧
    (∀ (unmarshal : GoString → Option PartialResponse) (t : Task) (responseBody : GoString)
      (fault : Option GoString) (db : Store),
      assembleDescription unmarshal responseBody = s →
      (createTaskOllama unmarshal (Except.ok t) (Except.ok responseBody) fault db).db = db ∨
      (createTaskOllama unmarshal (Except.ok t) (Except.ok responseBody) fault db).db
        = ⟨db.rows ++ [⟨db.nextId, t.Title, s.take 500 ++ utf8 "..."⟩], db.nextId⟩) := by
  have h2 : ¬ s.length ≤ 500 := by omega
  have htl : (s.take 500).length = 500 := by
    simp only [List.length_take]; omega
  have htrim : trimDescription s = some (s.take 500 ++ utf8 "...") := by
    rw [trimDescription_eq]; simp [h2]
  refine ⟨htrim, htl, ?_, ?_, ?_, ?_⟩
  · rw [utf8_dots]
    simp only [List.length_append, htl, List.length_cons, List.length_nil]
  · intro hascii
    have ha1 : ∀ b ∈ s.take 500, b < 0x80 := fun b hb => hascii b (List.mem_of_mem_take hb)
    have ha2 : ∀ b ∈ s.take 500 ++ utf8 "...", b < 0x80 := by
      intro b hb
      rw [utf8_dots] at hb
      rcases List.mem_append.mp hb with h | h
      · exact ha1 b h
      · simp at h; omega
    constructor
    · unfold runeCount; rw [runeCountFrom_ascii _ ha1, htl]
    · unfold runeCount; rw [runeCountFrom_ascii _ ha2, utf8_dots]
      simp only [List.length_append, htl, List.length_cons, List.length_nil]
  · intro unmarshal t responseBody db hs hroom
    exact createTaskOllama_created unmarshal t responseBody _ db (by rw [hs]; exact htrim) hroom
  · intro unmarshal t responseBody fault db hs
    exact createTaskOllama_store unmarshal t responseBody _ fault db (by rw [hs]; exact htrim)

/-- Witness for `trimDescription_long`: POST /tasks/ollama on an empty store with
a streamed line whose text has 502 bytes; the row stored carries the first 500
bytes and "...". -/
theorem trimDescription_long_witness :
    500 < ([0xC3, 0xA9] ++ List.replicate 500 0x61 : GoString).length ∧
    assembleDescription jsonUnmarshal sampleLongBody
      = [0xC3, 0xA9] ++ List.replicate 500 0x61 ∧
    (createTaskOllama jsonUnmarshal (Except.ok ⟨0, utf8 "T", []⟩) (Except.ok sampleLongBody)
        none ⟨[], 0⟩).db.rows
      = [⟨1, utf8 "T", [0xC3, 0xA9] ++ List.replicate 498 0x61 ++ [0x2E, 0x2E, 0x2E]⟩] :=
  ⟨by decide!, by decide!,
   (congrArg (fun o => o.db.rows)
     ((trimDescription_long ([0xC3, 0xA9] ++ List.replicate 500 0x61) (by decide!)).2.2.2.2.1
       jsonUnmarshal ⟨0, utf8 "T", []⟩ sampleLongBody ⟨[], 0⟩ (by decide!) (by decide!))).trans
     (by decide!)⟩

/-! ## Provider B: assembling the streamed lines -/

/-- C1, as stated, fails: the one-line body `{"response":"x","done":1}` is a
non-empty line that parses as a JSON document whose `response` member is the
string "x", yet `json.Unmarshal` reports a type error for `done`, the line is
skipped, and the assembled description is empty rather than "x". -/
theorem assembleDescription_skips_valid_json :
    utf8 "\x7b\"response\":\"x\",\"done\":1\x7d" ≠ [] ∧
    splitLines (utf8 "\x7b\"response\":\"x\",\"done\":1\x7d")
      = [utf8 "\x7b\"response\":\"x\",\"done\":1\x7d"] ∧
    jsonValid (utf8 "\x7b\"response\":\"x\",\"done\":1\x7d") = true ∧
    (((parseJSON (utf8 "\x7b\"response\":\"x\",\"done\":1\x7d")).bind
      (JValue.member (utf8 "response"))).bind JValue.asString) = some (utf8 "x") ∧
    jsonUnmarshal (utf8 "\x7b\"response\":\"x\",\"done\":1\x7d") = none ∧
    assembleDescription jsonUnmarshal (utf8 "\x7b\"response\":\"x\",\"done\":1\x7d") = [] := by
  decide!

/-- C1, amended. Provider B normalization: for every response body, the assembled
description (before truncation) is the concatenation, in line order, of the
`Response` text decoded from every line (split on line feed) that is non-empty
and that `json.Unmarshal` decodes into `{response string, done bool}` without
error, whatever the decoded `done`; a line it rejects contributes nothing and
does not stop later lines.  A line it accepts is a JSON document.  The body
`{"response":"Hel","done":false}\n{"response":"lo","done":true}\n` yields
"Hello", and so does that body with a non-JSON line between the two. -/
theorem assembleDescription_spec :
    (∀ (unmarshal : GoString → Option PartialResponse) (responseBody : GoString),
      assembleDescription unmarshal responseBody
        = ((((splitLines responseBody).filter (fun line => decide (line ≠ []))).filterMap
            unmarshal).map (fun p => p.Response)).flatten) ∧
    (∀ line p, jsonUnmarshal line = some p → jsonValid line = true) ∧
    assembleDescription jsonUnmarshal
      (utf8 "\x7b\"response\":\"Hel\",\"done\":false\x7d\n\x7b\"response\":\"lo\",\"done\":true\x7d\n")
      = utf8 "Hello" ∧
    assembleDescription jsonUnmarshal
      (utf8 "\x7b\"response\":\"Hel\",\"done\":false\x7d\nnot json\n\x7b\"response\":\"lo\",\"done\":true\x7d\n")
      = utf8 "Hello" := by
  refine ⟨?_, jsonUnmarshal_valid, by decide!, by decide!⟩
  intro unmarshal responseBody
  unfold assembleDescription
  rw [assemble_foldl]
  simp

/-! ## Provider C -/

/-- C3. Provider C normalization: for every decoded provider response (the body
bound, the credential present, the transport call returned), the handler replies
500 "Empty response from Gemini" exactly when the candidates sequence is empty or
the first candidate has no parts, and then issues no store statement and leaves
the store alone; otherwise the description sent to the store is the text of the
first part of the first candidate, and when the insert succeeds the reply is 201
with that description and the row is appended.  The index expressions never
panic.  (The store is assumed not to fail with the very text of the
empty-response message.) -/
theorem createTaskGemini_normalization (t : Task) (key : GoString) (g : GeminiResponse)
    (fault : Option GoString) (db : Store) (hkey : key ≠ [])
    (hfault : fault ≠ some (utf8 "Empty response from Gemini")) :
    ((createTaskGemini (Except.ok t) (some key) (Except.ok g) fault db).reply
        = Reply.json 500 (Body.error (utf8 "Empty response from Gemini"))
      ↔ (g.Candidates = [] ∨ ∃ c rest, g.Candidates = c :: rest ∧ c.Content.Parts = [])) ∧
    ((g.Candidates = [] ∨ ∃ c rest, g.Candidates = c :: rest ∧ c.Content.Parts = []) →
      (createTaskGemini (Except.ok t) (some key) (Except.ok g) fault db).db = db ∧
      ∀ e ∈ (createTaskGemini (Except.ok t) (some key) (Except.ok g) fault db).trace,
        e.isSql = false) ∧
    (∀ c rest p ps, g.Candidates = c :: rest → c.Content.Parts = p :: ps →
      Effect.sql (Stmt.insert t.Title p.Text)
        ∈ (createTaskGemini (Except.ok t) (some key) (Except.ok g) fault db).trace ∧
      (fault = none → db.nextId ≤ maxInt64 →
        (createTaskGemini (Except.ok t) (some key) (Except.ok g) fault db).reply
          = Reply.json 201 (Body.task ⟨db.nextId, t.Title, p.Text⟩) ∧
        (createTaskGemini (Except.ok t) (some key) (Except.ok g) fault db).db.rows
          = db.rows ++ [⟨db.nextId, t.Title, p.Text⟩])) ∧
    (createTaskGemini (Except.ok t) (some key) (Except.ok g) fault db).reply ≠ Reply.panic := by
  have hfull : utf8 "database or disk is full" ≠ utf8 "Empty response from Gemini" := by decide!
  obtain ⟨cands⟩ := g
  cases cands with
  | nil => simp [createTaskGemini, hkey, Effect.isSql]
  | cons c rest =>
    obtain ⟨⟨parts⟩⟩ := c
    cases parts with
    | nil =>
      simp [createTaskGemini, hkey, Effect.isSql]
      intro c r p1 ps1 hc _ hp
      subst hc
      simp at hp
    | cons p ps =>
      cases fault with
      | some e =>
        have he : e ≠ utf8 "Empty response from Gemini" := fun h => hfault (by rw [h])
        simp [createTaskGemini, hkey, Store.insert, he]
        intro c r p1 ps1 hc _ hp
        subst hc
        simp at hp
        rw [hp.1]
      | none =>
        by_cases hroom : db.nextId ≤ maxInt64
        · have h1 : ¬ db.nextId > 9223372036854775807 := by
            unfold maxInt64 at hroom; omega
          simp [createTaskGemini, hkey, Store.insert, h1]
          intro c r p1 ps1 hc _ hp
          subst hc
          simp at hp
          simp [hp.1]
        · have h1 : db.nextId > 9223372036854775807 := by
            unfold maxInt64 at hroom; omega
          simp [createTaskGemini, hkey, Store.insert, h1, hroom, hfull]
          intro c r p1 ps1 hc _ hp
          subst hc
          simp at hp
          rw [hp.1]

/-- Witness for `createTaskGemini_normalization`: an empty candidates sequence,
and a response with one candidate of one part, on an empty store. -/
theorem createTaskGemini_normalization_witness :
    (createTaskGemini (Except.ok ⟨0, utf8 "Buy milk", []⟩) (some (utf8 "k")) (Except.ok ⟨[]⟩)
        none ⟨[], 0⟩).reply
      = Reply.json 500 (Body.error (utf8 "Empty response from Gemini")) ∧
    (createTaskGemini (Except.ok ⟨0, utf8 "Buy milk", []⟩) (some (utf8 "k"))
        (Except.ok ⟨[⟨⟨[⟨utf8 "Two litres"⟩]⟩⟩]⟩) none ⟨[], 0⟩).reply
      = Reply.json 201 (Body.task ⟨1, utf8 "Buy milk", utf8 "Two litres"⟩) :=
  ⟨(createTaskGemini_normalization ⟨0, utf8 "Buy milk", []⟩ (utf8 "k") ⟨[]⟩ none ⟨[], 0⟩
      (by decide!) (by decide!)).1.mpr (Or.inl rfl),
   ((createTaskGemini_normalization ⟨0, utf8 "Buy milk", []⟩ (utf8 "k")
      ⟨[⟨⟨[⟨utf8 "Two litres"⟩]⟩⟩]⟩ none ⟨[], 0⟩ (by decide!) (by decide!)).2.2.1
      ⟨⟨[⟨utf8 "Two litres"⟩]⟩⟩ [] ⟨utf8 "Two litres"⟩ [] rfl rfl).2 rfl (by decide!) |>.1⟩

/-- C9. Provider C missing credential: for every well-formed request, when
`GEMINI_API_KEY` is unset or empty the handler replies 500 with an `error` body,
the only external effect is the read of the environment variable (no provider
call, no store statement), and the store is unchanged; whatever the environment,
the read of the variable is the first effect after the body is bound. -/
theorem createTaskGemini_missing_key (t : Task) (env : Option GoString)
    (call : Except GoString GeminiResponse) (fault : Option GoString) (db : Store)
    (hkey : env = none ∨ env = some []) :
    createTaskGemini (Except.ok t) env call fault db
      = ⟨Reply.json 500 (Body.error (utf8 "GEMINI_API_KEY not set")), db,
          [Effect.getenv (utf8 "GEMINI_API_KEY")]⟩ ∧
    (∀ env1 : Option GoString, (createTaskGemini (Except.ok t) env1 call fault db).trace.head?
      = some (Effect.getenv (utf8 "GEMINI_API_KEY"))) := by
  constructor
  · rcases hkey with h | h <;> subst h <;> simp [createTaskGemini]
  · intro env1
    unfold createTaskGemini
    simp only
    split
    · rfl
    · cases call with
      | error e => rfl
      | ok g =>
        simp only
        repeat' split
        all_goals rfl

/-- Witness for `createTaskGemini_missing_key`: the variable is unset. -/
theorem createTaskGemini_missing_key_witness :
    createTaskGemini (Except.ok ⟨0, utf8 "Buy milk", []⟩) none (Except.ok ⟨[]⟩) none ⟨[], 0⟩
      = ⟨Reply.json 500 (Body.error (utf8 "GEMINI_API_KEY not set")), ⟨[], 0⟩,
          [Effect.getenv (utf8 "GEMINI_API_KEY")]⟩ :=
  (createTaskGemini_missing_key ⟨0, utf8 "Buy milk", []⟩ none (Except.ok ⟨[]⟩) none ⟨[], 0⟩
    (Or.inl rfl)).1

/-! ## Request handling -/

/-- C8. A body that fails to bind is rejected atomically: `createTask`,
`createTaskOllama`, `createTaskGemini` and `updateTask` reply 400 with the binding
error in an `error` body, perform no external effect at all (no provider call, no
environment read, no store statement), and leave the store unchanged. -/
theorem malformed_body_rejected (e : GoString) (db : Store) (fault : Option GoString)
    (callA : Except GoString AIResponse) (callB : Except GoString GoString)
    (callC : Except GoString GeminiResponse) (unmarshal : GoString → Option PartialResponse)
    (env : Option GoString) (idEq : GoString → Int → Bool) (param : GoString) :
    createTask (Except.error e) callA fault db = ⟨Reply.json 400 (Body.error e), db, []⟩ ∧
    createTaskOllama unmarshal (Except.error e) callB fault db
      = ⟨Reply.json 400 (Body.error e), db, []⟩ ∧
    createTaskGemini (Except.error e) env callC fault db
      = ⟨Reply.json 400 (Body.error e), db, []⟩ ∧
    updateTask idEq param (Except.error e) fault db = ⟨Reply.json 400 (Body.error e), db, []⟩ :=
  ⟨rfl, rfl, rfl, rfl⟩

/-- C4, as stated, fails: the body `{"title":"Buy milk","description":"2 litres"}`
carries a description, the provider call returns without a transport error and
with no content (what the placeholder credential leads to), and the created task
has the empty description, not "2 litres". -/
theorem createTask_discards_client_description :
    createTask (Except.ok ⟨0, utf8 "Buy milk", utf8 "2 litres"⟩) (Except.ok ⟨[]⟩) none ⟨[], 0⟩
      = ⟨Reply.json 201 (Body.task ⟨1, utf8 "Buy milk", []⟩),
          ⟨[⟨1, utf8 "Buy milk", []⟩], 1⟩,
          [Effect.post anthropicURL
              (utf8 "Generate a short description for a task titled \x27Buy milk\x27"),
            Effect.sql (Stmt.insert (utf8 "Buy milk") [])]⟩ ∧
    utf8 "2 litres" ≠ [] := by
  decide!

/-- C4, amended. POST /tasks calls Provider A for every well-formed body, whether
or not the body carries a description, and when the call returns without a
transport error the created and returned task carries exactly the provider's
content text (possibly empty); the description of the body is never used. -/
theorem createTask_description_from_provider (t : Task) (result : AIResponse) (db : Store)
    (hroom : db.nextId ≤ maxInt64) :
    createTask (Except.ok t) (Except.ok result) none db
      = ⟨Reply.json 201 (Body.task ⟨db.nextId, t.Title, result.Content⟩),
          ⟨db.rows ++ [⟨db.nextId, t.Title, result.Content⟩], db.nextId⟩,
          [Effect.post anthropicURL
              (utf8 "Generate a short description for a task titled \x27" ++ t.Title ++ utf8 "\x27"),
            Effect.sql (Stmt.insert t.Title result.Content)]⟩ ∧
    (∀ (d : GoString) (call : Except GoString AIResponse) (fault : Option GoString),
      createTask (Except.ok { t with Description := d }) call fault db
        = createTask (Except.ok t) call fault db) ∧
    (∀ (call : Except GoString AIResponse) (fault : Option GoString),
      ∃ e ∈ (createTask (Except.ok t) call fault db).trace, e.isPost = true) := by
  have h1 : ¬ db.nextId > 9223372036854775807 := by
    unfold maxInt64 at hroom; omega
  refine ⟨?_, ?_, ?_⟩
  · simp [createTask, Store.insert, h1]
  · intro d call fault
    rfl
  · intro call fault
    cases call with
    | error e => simp [createTask, Effect.isPost]
    | ok r =>
      cases hins : db.insert fault t.Title r.Content with
      | error e => simp [createTask, hins, Effect.isPost]
      | ok p => simp [createTask, hins, Effect.isPost]

/-- Witness for `createTask_description_from_provider`: the first task of an empty
store. -/
theorem createTask_description_from_provider_witness :
    (createTask (Except.ok ⟨0, utf8 "Buy milk", utf8 "2 litres"⟩)
        (Except.ok ⟨utf8 "Get milk"⟩) none ⟨[], 0⟩).reply
      = Reply.json 201 (Body.task ⟨1, utf8 "Buy milk", utf8 "Get milk"⟩) :=
  congrArg Outcome.reply
    (createTask_description_from_provider ⟨0, utf8 "Buy milk", utf8 "2 litres"⟩
      ⟨utf8 "Get milk"⟩ ⟨[], 0⟩ (by decide!)).1

/-- C7, the code at a failing store: when the query of `getTask` fails, whatever
the driver's error and whether or not a row matches, the reply is 404 "Task not
found" and the store is untouched; the same store failure in `deleteTask`,
`updateTask` and `createTask` is answered with 500 and the driver's message. -/
theorem getTask_store_failure_is_404 (idEq : GoString → Int → Bool) (param e : GoString)
    (db : Store) :
    getTask idEq param (some e) db
      = ⟨Reply.json 404 (Body.error (utf8 "Task not found")), db,
          [Effect.sql (Stmt.selectById param)]⟩ ∧
    (deleteTask idEq param (some e) db).reply = Reply.json 500 (Body.error e) ∧
    (∀ t : Task,
      (updateTask idEq param (Except.ok t) (some e) db).reply = Reply.json 500 (Body.error e)) ∧
    (∀ (t : Task) (result : AIResponse),
      (createTask (Except.ok t) (Except.ok result) (some e) db).reply
        = Reply.json 500 (Body.error e)) :=
  ⟨rfl, rfl, fun _ => rfl, fun _ _ => rfl⟩

/-- C5. Update and Delete on an id that matches no row are silent no-ops: when
the store statement does not fail, `updateTask` replies 200 "Task updated" and
`deleteTask` replies 200 "Task deleted" and the store is exactly as before; and
whether or not the statement fails, neither reply is a 404 and the rows are the
same afterwards. -/
theorem update_delete_missing_noop (idEq : GoString → Int → Bool) (param : GoString)
    (t : Task) (db : Store) (hmiss : ∀ r ∈ db.rows, idEq param r.ID = false) :
    updateTask idEq param (Except.ok t) none db
      = ⟨Reply.json 200 (Body.message (utf8 "Task updated")), db,
          [Effect.sql (Stmt.update t.Title t.Description param)]⟩ ∧
    deleteTask idEq param none db
      = ⟨Reply.json 200 (Body.message (utf8 "Task deleted")), db,
          [Effect.sql (Stmt.delete param)]⟩ ∧
    (∀ fault : Option GoString,
      (updateTask idEq param (Except.ok t) fault db).reply.status ≠ some 404 ∧
      (updateTask idEq param (Except.ok t) fault db).db = db ∧
      (deleteTask idEq param fault db).reply.status ≠ some 404 ∧
      (deleteTask idEq param fault db).db = db) := by
  have hmap : db.rows.map (fun r =>
      if idEq param r.ID then { r with Title := t.Title, Description := t.Description } else r)
      = db.rows := by
    conv_rhs => rw [← List.map_id db.rows]
    apply List.map_congr_left
    intro r hr
    simp [hmiss r hr]
  have hfilter : db.rows.filter (fun r => !idEq param r.ID) = db.rows := by
    rw [List.filter_eq_self]
    intro r hr
    simp [hmiss r hr]
  have hup : updateTask idEq param (Except.ok t) none db
      = ⟨Reply.json 200 (Body.message (utf8 "Task updated")), db,
          [Effect.sql (Stmt.update t.Title t.Description param)]⟩ := by
    simp only [updateTask, Store.update, hmap]
  have hdel : deleteTask idEq param none db
      = ⟨Reply.json 200 (Body.message (utf8 "Task deleted")), db,
          [Effect.sql (Stmt.delete param)]⟩ := by
    simp only [deleteTask, Store.delete, hfilter]
  refine ⟨hup, hdel, ?_⟩
  intro fault
  cases fault with
  | none => rw [hup, hdel]; simp [Reply.status]
  | some e => simp [updateTask, deleteTask, Store.update, Store.delete, Reply.status]

/-- Witness for `update_delete_missing_noop`: id 7 in a store whose only row has
id 1. -/
theorem update_delete_missing_noop_witness :
    (∀ r ∈ (⟨[⟨1, utf8 "a", utf8 "b"⟩], 1⟩ : Store).rows, decimalIdEq (utf8 "7") r.ID = false) ∧
    (updateTask decimalIdEq (utf8 "7") (Except.ok ⟨0, utf8 "x", utf8 "y"⟩) none
        ⟨[⟨1, utf8 "a", utf8 "b"⟩], 1⟩).db = ⟨[⟨1, utf8 "a", utf8 "b"⟩], 1⟩ :=
  ⟨by decide!,
   congrArg Outcome.db (update_delete_missing_noop decimalIdEq (utf8 "7")
     ⟨0, utf8 "x", utf8 "y"⟩ ⟨[⟨1, utf8 "a", utf8 "b"⟩], 1⟩ (by decide!)).1⟩

/-! ## Create, then Get -/

/-- C6. Create/Get round trip: for every store state and every create on any of
the three create routes that replies 201 with task `t`, a `getTask` for a path
parameter that denotes `t.ID`, run on the store the create left and with the query
not failing, replies 200 with exactly `t` (same id, title and description); the
id is the one the store generates (`nextId` of the store before the create) and
the title is the bound one.  No create route reads the `id` of the request body:
replacing it changes nothing in the outcome. -/
theorem create_get_roundtrip (idEq : GoString → Int → Bool)
    (unmarshal : GoString → Option PartialResponse) (body : Except GoString Task)
    (callA : Except GoString AIResponse) (callB : Except GoString GoString)
    (callC : Except GoString GeminiResponse) (env fault : Option GoString) (db : Store)
    (o : Outcome) (t : Task) (param : GoString)
    (hroute : o = createTask body callA fault db ∨
      o = createTaskOllama unmarshal body callB fault db ∨
      o = createTaskGemini body env callC fault db)
    (hcreated : o.reply = Reply.json 201 (Body.task t))
    (hparam : ∀ j, idEq param j = decide (j = t.ID)) :
    getTask idEq param none o.db
      = ⟨Reply.json 200 (Body.task t), o.db, [Effect.sql (Stmt.selectById param)]⟩ ∧
    t.ID = db.nextId ∧
    (∀ b, body = Except.ok b → t.Title = b.Title) ∧
    (∀ (b : Task) (i : Int),
      createTask (Except.ok { b with ID := i }) callA fault db
        = createTask (Except.ok b) callA fault db ∧
      createTaskOllama unmarshal (Except.ok { b with ID := i }) callB fault db
        = createTaskOllama unmarshal (Except.ok b) callB fault db ∧
      createTaskGemini (Except.ok { b with ID := i }) env callC fault db
        = createTaskGemini (Except.ok b) env callC fault db) := by
  have key : ∀ (title d : GoString) (id : Int) (db1 : Store),
      db.insert fault title d = Except.ok (id, db1) → o.db = db1 →
      t = ⟨id, title, d⟩ →
      getTask idEq param none o.db
        = ⟨Reply.json 200 (Body.task t), o.db, [Effect.sql (Stmt.selectById param)]⟩ ∧
      t.ID = db.nextId := by
    intro title d id db1 hins hdb ht
    rw [hdb, ht]
    have hp : ∀ j, idEq param j = decide (j = id) := by
      intro j; rw [hparam j, ht]
    exact insert_then_get idEq fault db db1 title d id param hins hp
  have main : (getTask idEq param none o.db
        = ⟨Reply.json 200 (Body.task t), o.db, [Effect.sql (Stmt.selectById param)]⟩ ∧
      t.ID = db.nextId) ∧ (∀ b, body = Except.ok b → t.Title = b.Title) := by
    rcases hroute with h | h | h
    · subst h
      cases body with
      | error e => simp [createTask] at hcreated
      | ok b =>
        cases callA with
        | error e => simp [createTask] at hcreated
        | ok r =>
          cases hins : db.insert fault b.Title r.Content with
          | error e => simp [createTask, hins] at hcreated
          | ok p =>
            obtain ⟨id, db1⟩ := p
            simp only [createTask, hins, Reply.json.injEq, Body.task.injEq, true_and] at hcreated
            refine ⟨key b.Title r.Content id db1 hins ?_ hcreated.symm, ?_⟩
            · simp [createTask, hins]
            · intro b1 hb1
              cases hb1
              rw [← hcreated]
    · subst h
      cases body with
      | error e => simp [createTaskOllama] at hcreated
      | ok b =>
        cases callB with
        | error e => simp [createTaskOllama] at hcreated
        | ok rb =>
          cases htrim : trimDescription (assembleDescription unmarshal rb) with
          | none => simp [createTaskOllama, htrim] at hcreated
          | some d =>
            cases hins : db.insert fault b.Title d with
            | error e => simp [createTaskOllama, htrim, hins] at hcreated
            | ok p =>
              obtain ⟨id, db1⟩ := p
              simp only [createTaskOllama, htrim, hins, Reply.json.injEq, Body.task.injEq,
                true_and] at hcreated
              refine ⟨key b.Title d id db1 hins ?_ hcreated.symm, ?_⟩
              · simp [createTaskOllama, htrim, hins]
              · intro b1 hb1
                cases hb1
                rw [← hcreated]
    · subst h
      cases body with
      | error e => simp [createTaskGemini] at hcreated
      | ok b =>
        by_cases hk : env.getD [] = []
        · simp [createTaskGemini, hk] at hcreated
        · cases callC with
          | error e => simp [createTaskGemini, hk] at hcreated
          | ok g =>
            obtain ⟨cands⟩ := g
            cases cands with
            | nil => simp [createTaskGemini, hk] at hcreated
            | cons c rest =>
              obtain ⟨⟨parts⟩⟩ := c
              cases parts with
              | nil => simp [createTaskGemini, hk] at hcreated
              | cons p ps =>
                cases hins : db.insert fault b.Title p.Text with
                | error e => simp [createTaskGemini, hk, hins] at hcreated
                | ok q =>
                  obtain ⟨id, db1⟩ := q
                  simp [createTaskGemini, hk, hins] at hcreated
                  refine ⟨key b.Title p.Text id db1 hins ?_ hcreated.symm, ?_⟩
                  · simp [createTaskGemini, hk, hins]
                  · intro b1 hb1
                    cases hb1
                    rw [← hcreated]
  exact ⟨main.1.1, main.1.2, main.2, fun b i => ⟨rfl, rfl, rfl⟩⟩

/-- Witness for `create_get_roundtrip`: POST /tasks/ollama with the two-line body
of the specification on a store that holds one row, then GET /tasks/2. -/
theorem create_get_roundtrip_witness :
    (createTaskOllama jsonUnmarshal (Except.ok ⟨40, utf8 "Greet", []⟩)
        (Except.ok (utf8 "\x7b\"response\":\"Hel\",\"done\":false\x7d\n\x7b\"response\":\"lo\",\"done\":true\x7d\n"))
        none ⟨[⟨1, utf8 "a", utf8 "b"⟩], 1⟩).reply
      = Reply.json 201 (Body.task ⟨2, utf8 "Greet", utf8 "Hello"⟩) ∧
    (getTask decimalIdEq (utf8 "2") none
        (createTaskOllama jsonUnmarshal (Except.ok ⟨40, utf8 "Greet", []⟩)
          (Except.ok (utf8 "\x7b\"response\":\"Hel\",\"done\":false\x7d\n\x7b\"response\":\"lo\",\"done\":true\x7d\n"))
          none ⟨[⟨1, utf8 "a", utf8 "b"⟩], 1⟩).db).reply
      = Reply.json 200 (Body.task ⟨2, utf8 "Greet", utf8 "Hello"⟩) :=
  ⟨by decide!,
   congrArg Outcome.reply (create_get_roundtrip decimalIdEq jsonUnmarshal
     (Except.ok ⟨40, utf8 "Greet", []⟩) (Except.ok ⟨[]⟩)
     (Except.ok (utf8 "\x7b\"response\":\"Hel\",\"done\":false\x7d\n\x7b\"response\":\"lo\",\"done\":true\x7d\n"))
     (Except.ok ⟨[]⟩) none none ⟨[⟨1, utf8 "a", utf8 "b"⟩], 1⟩ _
     ⟨2, utf8 "Greet", utf8 "Hello"⟩ (utf8 "2") (Or.inr (Or.inl rfl)) (by decide!)
     (by
       intro j
       have h2 : decimalValue (utf8 "2") = some 2 := by decide!
       simp only [decimalIdEq, h2, decide_eq_decide]
       constructor <;> intro h <;> omega)).1⟩

end TaskApi
